import Mathlib

/-!
Expanding a box by a point

A verification development for
`include/boost/geometry/algorithms/detail/expand/point.hpp`.

Coordinates are exact rationals.  The two algorithms of the header are embedded
as pure functions from the old box to the new box:

* `point_loop`        : the per-dimension Cartesian loop (`point_loop<...>::apply`);
* `point_on_spheroid` : the longitude/latitude expansion (`point_on_spheroid::apply`).
-/

namespace Expand

/-! ## Data model -/

/-- A point of `D` coordinates; `geometry::get<d>(p)` is `p d`. -/
abbrev Point (D : Nat) := Fin D → ℚ

/-- A box: two corners of `D` coordinates each;
`geometry::get<min_corner, d>(b)` is `b.min_corner d`. -/
structure Box (D : Nat) where
  min_corner : Point D
  max_corner : Point D

/-- The call `set<min_corner, d>(box, c)`. -/
def set_min_corner {D : Nat} (d : Fin D) (box : Box D) (c : ℚ) : Box D :=
  { box with min_corner := Function.update box.min_corner d c }

/-- The call `set<max_corner, d>(box, c)`. -/
def set_max_corner {D : Nat} (d : Fin D) (box : Box D) (c : ℚ) : Box D :=
  { box with max_corner := Function.update box.max_corner d c }

/-- The call `assign_values(box, c1, c2, c3, c4)` on a two-dimensional box: the
first two values go to the minimum corner, the last two to the maximum corner. -/
def assign_values (c1 c2 c3 c4 : ℚ) : Box 2 :=
  { min_corner := ![c1, c2], max_corner := ![c3, c4] }

/-! ## The Cartesian loop -/

/-- A comparison strategy after `select_strategy`: one binary predicate per
dimension. -/
abbrev Strategy (D : Nat) := Fin D → ℚ → ℚ → Bool

/-- The default `less` strategy (`std::less` on every dimension). -/
def std_less {D : Nat} : Strategy D := fun _ a b => decide (a < b)

/-- The default `greater` strategy (`std::greater` on every dimension). -/
def std_greater {D : Nat} : Strategy D := fun _ a b => decide (a > b)

/-- The template `point_loop<StrategyLess, StrategyGreater, Dimension, DimensionCount>::apply`.
The argument `k` counts the dimensions still to visit, `Dimension + k = DimensionCount`;
`k = 0` is the terminating specialisation `Dimension == DimensionCount`, whose body is
empty. -/
def point_loop {DimensionCount : Nat} (less greater : Strategy DimensionCount) :
    (k : Nat) → (Dimension : Nat) → Dimension + k = DimensionCount →
      Box DimensionCount → Point DimensionCount → Box DimensionCount
  | 0, _, _, box, _ => box
  | k + 1, Dimension, h, box, source =>
    let d : Fin DimensionCount := ⟨Dimension, by omega⟩
    let coord := source d
    let box := if less d coord (box.min_corner d) then set_min_corner d box coord else box
    let box := if greater d coord (box.max_corner d) then set_max_corner d box coord else box
    point_loop less greater k (Dimension + 1) (by omega) box source

/-- The Cartesian expansion as `dispatch::expand` instantiates it: the loop started at
dimension `0` with `DimensionCount = dimension<Point>`. -/
def expand_cartesian {D : Nat} (less greater : Strategy D) (box : Box D) (point : Point D) :
    Box D :=
  point_loop less greater D 0 (Nat.zero_add D) box point

/-! ## The expansion on a spheroid -/

/-- The call `(std::min)(a, b)`: `b` when `b < a`, otherwise `a`. -/
def std_min (a b : ℚ) : ℚ := if b < a then b else a

/-- The call `(std::max)(a, b)`: `b` when `a < b`, otherwise `a`. -/
def std_max (a b : ℚ) : ℚ := if a < b then b else a

/-- Modelled from the spec: `math::equals` of `util/math.hpp`, which is not part of this
header.  The spec describes it as equality up to the domain's floating tolerance; on exact
rational coordinates that tolerance is zero. -/
def math_equals (a b : ℚ) : Bool := decide (a = b)

/-- Modelled from the spec: `math::smaller` of `util/math.hpp` ("strictly less"), on exact
coordinates. -/
def math_smaller (a b : ℚ) : Bool := decide (a < b)

/-- Modelled from the spec: `math::larger` of `util/math.hpp` ("strictly greater"), on exact
coordinates. -/
def math_larger (a b : ℚ) : Bool := decide (a > b)

/-- Modelled from the spec: `math::abs` of `util/math.hpp`, the absolute value. -/
def math_abs (a : ℚ) : ℚ := |a|

/-- The collaborators of `point_on_spheroid::apply` that depend on the angular units of the
box and of the point and are defined outside this header; they are parameters of the
embedding:

* `period`, `max_latitude` : `constants_on_spheroid<_, units of Box>`; the period is a
  positive constant (360 degrees, or 2 pi radians);
* `normalize_spheroidal_coordinates` : the point normaliser, in the point's units;
* `convert_coordinates` : the conversion from the point's units to the box's units;
* `normalize_spheroidal_box_coordinates` : the box normaliser, in the box's units.

The functions return the values that the C++ helpers write back through their reference
arguments, in argument order. -/
structure Units where
  period : ℚ
  max_latitude : ℚ
  period_pos : 0 < period
  normalize_spheroidal_coordinates : ℚ → ℚ → ℚ × ℚ
  convert_coordinates : ℚ → ℚ → ℚ × ℚ
  normalize_spheroidal_box_coordinates : ℚ → ℚ → ℚ → ℚ → ℚ × ℚ × ℚ × ℚ

/-- The pair `(p_lon, p_lat)` after lines 65-78 of the header: read from the point,
normalised in the point's units, converted to the box's units. -/
def point_coordinates (U : Units) (point : Point 2) : ℚ × ℚ :=
  let p := U.normalize_spheroidal_coordinates (point 0) (point 1)
  U.convert_coordinates p.1 p.2

/-- The local `p_lon` when the pole tests are reached. -/
def p_lon (U : Units) (point : Point 2) : ℚ := (point_coordinates U point).1

/-- The local `p_lat` when the pole tests are reached. -/
def p_lat (U : Units) (point : Point 2) : ℚ := (point_coordinates U point).2

/-- The tuple `(b_lon_min, b_lat_min, b_lon_max, b_lat_max)` after lines 80-90 of the header:
read from the box and normalised in the box's units. -/
def box_coordinates (U : Units) (box : Box 2) : ℚ × ℚ × ℚ × ℚ :=
  U.normalize_spheroidal_box_coordinates
    (box.min_corner 0) (box.min_corner 1) (box.max_corner 0) (box.max_corner 1)

/-- The local `b_lon_min` when the pole tests are reached. -/
def b_lon_min (U : Units) (box : Box 2) : ℚ := (box_coordinates U box).1

/-- The local `b_lat_min` when the pole tests are reached. -/
def b_lat_min (U : Units) (box : Box 2) : ℚ := (box_coordinates U box).2.1

/-- The local `b_lon_max` when the pole tests are reached. -/
def b_lon_max (U : Units) (box : Box 2) : ℚ := (box_coordinates U box).2.2.1

/-- The local `b_lat_max` when the pole tests are reached. -/
def b_lat_max (U : Units) (box : Box 2) : ℚ := (box_coordinates U box).2.2.2

/-- The longitude update of lines 126-156 of the header, returning the final pair
`(b_lon_min, b_lon_max)`. -/
def update_longitudes (period p_lon b_lon_min b_lon_max : ℚ) : ℚ × ℚ :=
  if math_smaller p_lon b_lon_min then
    let p_lon_shifted := p_lon + period
    if math_larger p_lon_shifted b_lon_max then
      if math_smaller (b_lon_min - p_lon) (p_lon_shifted - b_lon_max) then
        (p_lon, b_lon_max)
      else
        (b_lon_min, p_lon_shifted)
    else
      (b_lon_min, b_lon_max)
  else if math_larger p_lon b_lon_max then
    if decide (b_lon_min < 0)
        && math_larger (p_lon - b_lon_max) (period - p_lon + b_lon_min) then
      (p_lon, b_lon_max + period)
    else
      (b_lon_min, p_lon)
  else
    (b_lon_min, b_lon_max)

/-- The function `point_on_spheroid::apply`: the box written back by whichever
`assign_values` call is reached. -/
def point_on_spheroid (U : Units) (box : Box 2) (point : Point 2) : Box 2 :=
  let p_lon := p_lon U point
  let p_lat := p_lat U point
  let b_lon_min := b_lon_min U box
  let b_lat_min := b_lat_min U box
  let b_lon_max := b_lon_max U box
  let b_lat_max := b_lat_max U box
  if math_equals (math_abs p_lat) U.max_latitude then
    assign_values b_lon_min (std_min p_lat b_lat_min) b_lon_max (std_max p_lat b_lat_max)
  else if math_equals b_lat_min b_lat_max
      && math_equals (math_abs b_lat_min) U.max_latitude then
    assign_values p_lon (std_min p_lat b_lat_min) p_lon (std_max p_lat b_lat_max)
  else
    let b_lat_min := std_min b_lat_min p_lat
    let b_lat_max := std_max b_lat_max p_lat
    let lons := update_longitudes U.period p_lon b_lon_min b_lon_max
    assign_values lons.1 b_lat_min lons.2 b_lat_max

/-! ### Reading a two-dimensional box -/

/-- Longitude of the minimum corner, `get<min_corner, 0>`. -/
def Box.lon_min (b : Box 2) : ℚ := b.min_corner 0

/-- Latitude of the minimum corner, `get<min_corner, 1>`. -/
def Box.lat_min (b : Box 2) : ℚ := b.min_corner 1

/-- Longitude of the maximum corner, `get<max_corner, 0>`. -/
def Box.lon_max (b : Box 2) : ℚ := b.max_corner 0

/-- Latitude of the maximum corner, `get<max_corner, 1>`. -/
def Box.lat_max (b : Box 2) : ℚ := b.max_corner 1

/-! ### Degrees -/

/-- Modelled from the spec: the canonical longitude range is `(-period/2, period/2]`;
`wrap_longitude P x` is the representative of `x` modulo `P` in that range. -/
def wrap_longitude (P x : ℚ) : ℚ := x - P * ⌈(x - P / 2) / P⌉

/-- Modelled from the spec: the collaborators for a box and a point both in degrees (period
360, maximum latitude 90).  The point normaliser wraps the longitude into `(-180, 180]` and
leaves the latitude as it is; the conversion between equal units is the identity; the box
normaliser wraps both longitudes and, when that leaves `lon_min > lon_max`, adds one period to
`lon_max` (the straddling form). -/
def degree : Units where
  period := 360
  max_latitude := 90
  period_pos := by norm_num
  normalize_spheroidal_coordinates := fun lon lat => (wrap_longitude 360 lon, lat)
  convert_coordinates := fun lon lat => (lon, lat)
  normalize_spheroidal_box_coordinates := fun lon1 lat1 lon2 lat2 =>
    let l1 := wrap_longitude 360 lon1
    let l2 := wrap_longitude 360 lon2
    (l1, lat1, if l2 < l1 then l2 + 360 else l2, lat2)

/-! ### Predicates of the claims on the normalised coordinates -/

/-- The point is the north or the south pole: the test of line 92. -/
def point_at_pole (U : Units) (point : Point 2) : Prop :=
  |p_lat U point| = U.max_latitude

/-- The box degenerates to the north or the south pole: the test of lines 106-107. -/
def box_at_pole (U : Units) (box : Box 2) : Prop :=
  b_lat_min U box = b_lat_max U box ∧ |b_lat_min U box| = U.max_latitude

/-- Canonical longitude form of the normalised box: `lon_min` in `(-P/2, P/2]` and
`lon_min <= lon_max`. -/
def canonical_box (U : Units) (box : Box 2) : Prop :=
  -(U.period / 2) < b_lon_min U box ∧ b_lon_min U box ≤ U.period / 2
    ∧ b_lon_min U box ≤ b_lon_max U box

/-- The normalised longitude of the point is in `(-P/2, P/2]`. -/
def longitude_in_range (U : Units) (point : Point 2) : Prop :=
  -(U.period / 2) < p_lon U point ∧ p_lon U point ≤ U.period / 2

/-- The normalised latitude of the point is in `[-max_latitude, max_latitude]`. -/
def latitude_in_range (U : Units) (point : Point 2) : Prop :=
  -U.max_latitude ≤ p_lat U point ∧ p_lat U point ≤ U.max_latitude

/-- The longitude `lon` lies in the interval `[lon_min, lon_max]`, read as an arc: either
as it is or shifted by one period `P` (the straddling representation). -/
def longitude_within (P lon lon_min lon_max : ℚ) : Prop :=
  (lon_min ≤ lon ∧ lon ≤ lon_max) ∨ (lon_min ≤ lon + P ∧ lon + P ≤ lon_max)

/-- Canonical longitude form of a pair of bounds: `lon_min` in `(-P/2, P/2]`,
`lon_min <= lon_max` and a span `lon_max - lon_min` of at most one period. -/
def canonical_longitudes (P lon_min lon_max : ℚ) : Prop :=
  -(P / 2) < lon_min ∧ lon_min ≤ P / 2 ∧ lon_min ≤ lon_max ∧ lon_max - lon_min ≤ P

instance decidable_canonical_longitudes (P lon_min lon_max : ℚ) :
    Decidable (canonical_longitudes P lon_min lon_max) :=
  inferInstanceAs (Decidable (_ ∧ _))

instance decidable_point_at_pole (U : Units) (point : Point 2) : Decidable (point_at_pole U point) :=
  inferInstanceAs (Decidable (_ = _))

instance decidable_box_at_pole (U : Units) (box : Box 2) : Decidable (box_at_pole U box) :=
  inferInstanceAs (Decidable (_ ∧ _))

instance decidable_canonical_box (U : Units) (box : Box 2) : Decidable (canonical_box U box) :=
  inferInstanceAs (Decidable (_ ∧ _))

instance decidable_longitude_in_range (U : Units) (point : Point 2) : Decidable (longitude_in_range U point) :=
  inferInstanceAs (Decidable (_ ∧ _))

instance decidable_latitude_in_range (U : Units) (point : Point 2) : Decidable (latitude_in_range U point) :=
  inferInstanceAs (Decidable (_ ∧ _))

instance decidable_longitude_within (P lon lon_min lon_max : ℚ) : Decidable (longitude_within P lon lon_min lon_max) :=
  inferInstanceAs (Decidable (_ ∨ _))

/-! ### Non-default strategies -/

/-- The `less` strategy that is reversed (`>`) on axis `k` and natural (`<`) on every
other axis. -/
def less_reversed_on {D : Nat} (k : Fin D) : Strategy D :=
  fun d a b => if d = k then decide (a > b) else decide (a < b)

/-- The `greater` strategy that is reversed (`<`) on axis `k` and natural (`>`) on every
other axis. -/
def greater_reversed_on {D : Nat} (k : Fin D) : Strategy D :=
  fun d a b => if d = k then decide (a < b) else decide (a > b)

/-- A strict but non-standard predicate, "different from", the same on every axis. -/
def differs {D : Nat} : Strategy D := fun _ a b => decide (a ≠ b)

/-! ## Dispatch -/

/-- Coordinate-system tags, the arguments `CSTagOut` and `CSTag` of `dispatch::expand`: the
three families the header is concerned with, and `unclassified` for any other tag type. -/
inductive CSTag
  | cartesian_tag
  | spherical_equatorial_tag
  | geographic_tag
  | unclassified
  deriving DecidableEq

/-- One tag position in the argument list of a partial specialisation: a template parameter
left free, or a fixed tag. -/
inductive TagPattern
  | free
  | fixed (t : CSTag)

/-- The base class from which a specialisation inherits `apply`: `point_loop` started at
dimension `0` with `DimensionCount = dimension<Point>`, or `point_on_spheroid`. -/
inductive Algorithm
  | point_loop
  | point_on_spheroid
  deriving DecidableEq

/-- A partial specialisation of `dispatch::expand` for `box_tag`, `point_tag`. -/
structure Specialization where
  cs_tag_out : TagPattern
  cs_tag : TagPattern
  base : Algorithm

/-- Whether a tag fits a pattern. -/
def TagPattern.accepts : TagPattern → CSTag → Bool
  | TagPattern.free, _ => true
  | TagPattern.fixed t, c => decide (t = c)

/-- How specialised a pattern is: a fixed tag is more specialised than a free parameter. -/
def TagPattern.rank : TagPattern → Nat
  | TagPattern.free => 0
  | TagPattern.fixed _ => 1

/-- Whether a specialisation matches a pair of tags. -/
def Specialization.accepts (s : Specialization) (cs_tag_out cs_tag : CSTag) : Bool :=
  s.cs_tag_out.accepts cs_tag_out && s.cs_tag.accepts cs_tag

/-- How specialised a specialisation is. -/
def Specialization.rank (s : Specialization) : Nat :=
  s.cs_tag_out.rank + s.cs_tag.rank

/-- The three specialisations of the header, in source order (lines 231-246, 248-258 and
260-270). -/
def expand_specializations : List Specialization :=
  [ { cs_tag_out := TagPattern.free, cs_tag := TagPattern.free, base := Algorithm.point_loop },
    { cs_tag_out := TagPattern.fixed CSTag.spherical_equatorial_tag,
      cs_tag := TagPattern.fixed CSTag.spherical_equatorial_tag,
      base := Algorithm.point_on_spheroid },
    { cs_tag_out := TagPattern.fixed CSTag.geographic_tag,
      cs_tag := TagPattern.fixed CSTag.geographic_tag,
      base := Algorithm.point_on_spheroid } ]

/-- The more specialised of a candidate and a further matching specialisation. -/
def more_specialized (best : Option Specialization) (s : Specialization) :
    Option Specialization :=
  match best with
  | none => some s
  | some t => if t.rank < s.rank then some s else some t

/-- The struct `dispatch::expand<BoxOut, Point, _, _, box_tag, point_tag, CSTagOut, CSTag>`:
among the specialisations that match the pair of tags the most specialised one is
instantiated; `none` stands for no specialisation matching, where the primary template of
`dispatch/expand.hpp` would be used. -/
def dispatch_expand (cs_tag_out cs_tag : CSTag) : Option Algorithm :=
  (((expand_specializations.filter (fun s => s.accepts cs_tag_out cs_tag)).foldl
    more_specialized none).map (fun s => s.base))

/-- The call `dispatch::expand<...>::apply(box, point)` on two-dimensional geometries. -/
def dispatch_expand_apply (U : Units) (less greater : Strategy 2) (cs_tag_out cs_tag : CSTag)
    (box : Box 2) (point : Point 2) : Option (Box 2) :=
  match dispatch_expand cs_tag_out cs_tag with
  | some Algorithm.point_loop => some (expand_cartesian less greater box point)
  | some Algorithm.point_on_spheroid => some (point_on_spheroid U box point)
  | none => none

/-! ## Lemmas on the Cartesian loop -/

theorem Box.ext_corners {D : Nat} {a b : Box D} (hmin : a.min_corner = b.min_corner)
    (hmax : a.max_corner = b.max_corner) : a = b := by
  cases a; cases b; simp_all

/-- What the loop leaves in the minimum corner: a dimension at or after `Dimension` holds
the point's coordinate when `less` fires there, every other value is the old one. -/
theorem point_loop_min_corner {D : Nat} (less greater : Strategy D) (k : Nat) :
    ∀ (Dimension : Nat) (h : Dimension + k = D) (box : Box D) (source : Point D) (d : Fin D),
      (point_loop less greater k Dimension h box source).min_corner d =
        if Dimension ≤ d.val ∧ less d (source d) (box.min_corner d) = true then source d
        else box.min_corner d := by
  induction k with
  | zero =>
    intro Dimension h box source d
    have hd : ¬ Dimension ≤ d.val := by have := d.isLt; omega
    simp [point_loop, hd]
  | succ k ih =>
    intro Dimension h box source d
    rw [point_loop, ih]
    by_cases hd : d.val = Dimension
    · subst hd
      by_cases hl : less d (source d) (box.min_corner d) = true <;>
        by_cases hg : greater d (source d) (box.max_corner d) = true <;>
        simp [hl, hg, set_min_corner, set_max_corner]
    · have hd2 : d ≠ ⟨Dimension, by omega⟩ := fun e => hd (by rw [e])
      have hle : (Dimension + 1 ≤ d.val) ↔ (Dimension ≤ d.val) := by omega
      simp only [hle]
      split_ifs <;> simp_all [set_min_corner, set_max_corner, Function.update_noteq]

/-- What the loop leaves in the maximum corner: a dimension at or after `Dimension` holds
the point's coordinate when `greater` fires there, every other value is the old one. -/
theorem point_loop_max_corner {D : Nat} (less greater : Strategy D) (k : Nat) :
    ∀ (Dimension : Nat) (h : Dimension + k = D) (box : Box D) (source : Point D) (d : Fin D),
      (point_loop less greater k Dimension h box source).max_corner d =
        if Dimension ≤ d.val ∧ greater d (source d) (box.max_corner d) = true then source d
        else box.max_corner d := by
  induction k with
  | zero =>
    intro Dimension h box source d
    have hd : ¬ Dimension ≤ d.val := by have := d.isLt; omega
    simp [point_loop, hd]
  | succ k ih =>
    intro Dimension h box source d
    rw [point_loop, ih]
    by_cases hd : d.val = Dimension
    · subst hd
      by_cases hl : less d (source d) (box.min_corner d) = true <;>
        by_cases hg : greater d (source d) (box.max_corner d) = true <;>
        simp [hl, hg, set_min_corner, set_max_corner]
    · have hd2 : d ≠ ⟨Dimension, by omega⟩ := fun e => hd (by rw [e])
      have hle : (Dimension + 1 ≤ d.val) ↔ (Dimension ≤ d.val) := by omega
      simp only [hle]
      split_ifs <;> simp_all [set_min_corner, set_max_corner, Function.update_noteq]

/-- The minimum corner after the expansion started at dimension `0`. -/
theorem expand_cartesian_min_corner {D : Nat} (less greater : Strategy D) (box : Box D)
    (point : Point D) (d : Fin D) :
    (expand_cartesian less greater box point).min_corner d =
      if less d (point d) (box.min_corner d) = true then point d else box.min_corner d := by
  simp [expand_cartesian, point_loop_min_corner]

/-- The maximum corner after the expansion started at dimension `0`. -/
theorem expand_cartesian_max_corner {D : Nat} (less greater : Strategy D) (box : Box D)
    (point : Point D) (d : Fin D) :
    (expand_cartesian less greater box point).max_corner d =
      if greater d (point d) (box.max_corner d) = true then point d else box.max_corner d := by
  simp [expand_cartesian, point_loop_max_corner]

/-- With the natural orderings the new minimum is the smaller of old minimum and point. -/
theorem expand_cartesian_std_min {D : Nat} (box : Box D) (point : Point D) (d : Fin D) :
    (expand_cartesian std_less std_greater box point).min_corner d =
      min (box.min_corner d) (point d) := by
  rw [expand_cartesian_min_corner]
  simp only [std_less, decide_eq_true_eq]
  split_ifs with h
  · exact (min_eq_right h.le).symm
  · exact (min_eq_left (not_lt.mp h)).symm

/-- With the natural orderings the new maximum is the larger of old maximum and point. -/
theorem expand_cartesian_std_max {D : Nat} (box : Box D) (point : Point D) (d : Fin D) :
    (expand_cartesian std_less std_greater box point).max_corner d =
      max (box.max_corner d) (point d) := by
  rw [expand_cartesian_max_corner]
  simp only [std_greater, gt_iff_lt, decide_eq_true_eq]
  split_ifs with h
  · exact (max_eq_right h.le).symm
  · exact (max_eq_left (not_lt.mp h)).symm

/-! ## Lemmas on the expansion on a spheroid -/

theorem std_min_eq (a b : ℚ) : std_min a b = min a b := by
  unfold std_min
  split_ifs with h
  · exact (min_eq_right h.le).symm
  · exact (min_eq_left (not_lt.mp h)).symm

theorem std_max_eq (a b : ℚ) : std_max a b = max a b := by
  unfold std_max
  split_ifs with h
  · exact (max_eq_right h.le).symm
  · exact (max_eq_left (not_lt.mp h)).symm

@[simp]
theorem assign_values_lon_min (a b c d : ℚ) : (assign_values a b c d).lon_min = a := rfl

@[simp]
theorem assign_values_lat_min (a b c d : ℚ) : (assign_values a b c d).lat_min = b := rfl

@[simp]
theorem assign_values_lon_max (a b c d : ℚ) : (assign_values a b c d).lon_max = c := rfl

@[simp]
theorem assign_values_lat_max (a b c d : ℚ) : (assign_values a b c d).lat_max = d := rfl

/-- The first return of `point_on_spheroid::apply`: the point is a pole. -/
theorem point_on_spheroid_of_point_at_pole (U : Units) (box : Box 2) (point : Point 2)
    (h : point_at_pole U point) :
    point_on_spheroid U box point =
      assign_values (b_lon_min U box) (min (p_lat U point) (b_lat_min U box))
        (b_lon_max U box) (max (p_lat U point) (b_lat_max U box)) := by
  unfold point_at_pole at h
  simp [point_on_spheroid, math_equals, math_abs, h, std_min_eq, std_max_eq]

/-- The second return of `point_on_spheroid::apply`: the box is a pole, the point is not. -/
theorem point_on_spheroid_of_box_at_pole (U : Units) (box : Box 2) (point : Point 2)
    (hp : ¬ point_at_pole U point) (hb : box_at_pole U box) :
    point_on_spheroid U box point =
      assign_values (p_lon U point) (min (p_lat U point) (b_lat_min U box))
        (p_lon U point) (max (p_lat U point) (b_lat_max U box)) := by
  unfold point_at_pole at hp
  obtain ⟨hb1, hb2⟩ := hb
  simp only [point_on_spheroid, math_equals, math_abs, hp, decide_False, Bool.false_eq_true,
    if_false, std_min_eq, std_max_eq]
  rw [if_pos]
  simp only [Bool.and_eq_true, decide_eq_true_eq]
  exact ⟨hb1, hb2⟩

/-- The last return of `point_on_spheroid::apply`: neither the point nor the box is a
pole. -/
theorem point_on_spheroid_general (U : Units) (box : Box 2) (point : Point 2)
    (hp : ¬ point_at_pole U point) (hb : ¬ box_at_pole U box) :
    point_on_spheroid U box point =
      assign_values
        (update_longitudes U.period (p_lon U point) (b_lon_min U box) (b_lon_max U box)).1
        (min (b_lat_min U box) (p_lat U point))
        (update_longitudes U.period (p_lon U point) (b_lon_min U box) (b_lon_max U box)).2
        (max (b_lat_max U box) (p_lat U point)) := by
  unfold point_at_pole at hp
  unfold box_at_pole at hb
  have hb2 : ¬ (b_lat_min U box = b_lat_max U box ∧ |b_lat_min U box| = U.max_latitude) := hb
  simp only [point_on_spheroid, math_equals, math_abs, hp, decide_False, Bool.false_eq_true,
    if_false, std_min_eq, std_max_eq]
  rw [if_neg]
  simpa using hb2

/-- The longitude update spelled out with the order relations of the rationals. -/
theorem update_longitudes_eq (P lon lon_min lon_max : ℚ) :
    update_longitudes P lon lon_min lon_max =
      if lon < lon_min then
        if lon_max < lon + P then
          if lon_min - lon < lon + P - lon_max then (lon, lon_max) else (lon_min, lon + P)
        else (lon_min, lon_max)
      else if lon_max < lon then
        if lon_min < 0 ∧ P - lon + lon_min < lon - lon_max then (lon, lon_max + P)
        else (lon_min, lon)
      else (lon_min, lon_max) := by
  simp [update_longitudes, math_smaller, math_larger]

/-- The wrapped longitude of a value already in `(-P/2, P/2]` is that value. -/
theorem wrap_longitude_of_mem {P x : ℚ} (hP : 0 < P) (h1 : -(P / 2) < x) (h2 : x ≤ P / 2) :
    wrap_longitude P x = x := by
  have h : ⌈(x - P / 2) / P⌉ = 0 := by
    rw [Int.ceil_eq_zero_iff]
    constructor
    · rw [lt_div_iff₀ hP]; linarith
    · rw [div_le_iff₀ hP]; linarith
  simp [wrap_longitude, h]

/-- The wrapped longitude always lies in `(-P/2, P/2]`. -/
theorem wrap_longitude_mem {P : ℚ} (hP : 0 < P) (x : ℚ) :
    -(P / 2) < wrap_longitude P x ∧ wrap_longitude P x ≤ P / 2 := by
  unfold wrap_longitude
  have h1 := Int.ceil_lt_add_one ((x - P / 2) / P)
  have h2 := Int.le_ceil ((x - P / 2) / P)
  have h3 : ((⌈(x - P / 2) / P⌉ : ℚ) - 1) * P < x - P / 2 :=
    (lt_div_iff₀ hP).mp (by linarith)
  have h4 : x - P / 2 ≤ (⌈(x - P / 2) / P⌉ : ℚ) * P := (div_le_iff₀ hP).mp h2
  constructor <;> linarith

/-- In degrees every point has its normalised longitude in `(-180, 180]`. -/
theorem degree_longitude_in_range (point : Point 2) : longitude_in_range degree point := by
  have h := wrap_longitude_mem (by norm_num : (0 : ℚ) < 360) (point 0)
  simpa [longitude_in_range, p_lon, point_coordinates, degree] using h

/-- In degrees a point with longitude in `(-180, 180]` is its own normal form. -/
theorem degree_point_coordinates (x y : ℚ) (h1 : -180 < x) (h2 : x ≤ 180) :
    point_coordinates degree ![x, y] = (x, y) := by
  have hw : wrap_longitude 360 x = x :=
    wrap_longitude_of_mem (by norm_num) (by linarith) (by linarith)
  simp [point_coordinates, degree, hw]

/-- In degrees a box with both longitudes in `(-180, 180]` and `lon_min <= lon_max` is its
own normal form. -/
theorem degree_box_coordinates (a b c d : ℚ) (ha1 : -180 < a) (ha2 : a ≤ 180)
    (hc1 : -180 < c) (hc2 : c ≤ 180) (hac : a ≤ c) :
    box_coordinates degree ⟨![a, b], ![c, d]⟩ = (a, b, c, d) := by
  have hwa : wrap_longitude 360 a = a :=
    wrap_longitude_of_mem (by norm_num) (by linarith) (by linarith)
  have hwc : wrap_longitude 360 c = c :=
    wrap_longitude_of_mem (by norm_num) (by linarith) (by linarith)
  simp [box_coordinates, degree, hwa, hwc, not_lt.mpr hac]

/-- In degrees, the general path on a box and a point that are their own normal forms. -/
theorem degree_point_on_spheroid_general (a b c d x y : ℚ) (ha1 : -180 < a) (ha2 : a ≤ 180)
    (hc1 : -180 < c) (hc2 : c ≤ 180) (hac : a ≤ c) (hx1 : -180 < x) (hx2 : x ≤ 180)
    (hy : |y| ≠ 90) (hb : ¬ (b = d ∧ |b| = 90)) :
    point_on_spheroid degree ⟨![a, b], ![c, d]⟩ ![x, y] =
      assign_values (update_longitudes 360 x a c).1 (min b y)
        (update_longitudes 360 x a c).2 (max d y) := by
  have hpc := degree_point_coordinates x y hx1 hx2
  have hbc := degree_box_coordinates a b c d ha1 ha2 hc1 hc2 hac
  have hM : degree.max_latitude = 90 := rfl
  have hP : degree.period = 360 := rfl
  have hpoint : ¬ point_at_pole degree ![x, y] := by
    unfold point_at_pole p_lat; rw [hpc, hM]; exact hy
  have hbox : ¬ box_at_pole degree ⟨![a, b], ![c, d]⟩ := by
    unfold box_at_pole b_lat_min b_lat_max; rw [hbc, hM]; exact hb
  rw [point_on_spheroid_general degree _ _ hpoint hbox]
  unfold p_lon p_lat b_lon_min b_lat_min b_lon_max b_lat_max
  rw [hpc, hbc, hP]

/-! ## The Cartesian claims -/

/-- C1. Cartesian expansion with the natural orderings, started at dimension 0: for every
dimension count `D`, box, point and `d < D`, the new `min_corner[d]` is
`min(old min_corner[d], point[d])` and the new `max_corner[d]` is
`max(old max_corner[d], point[d])`; and for `D = 3` the box `[(0,0,0),(1,1,1)]` expanded by
`(-1, 2, 1/2)` is `[(-1,0,0),(1,2,1)]`. -/
theorem C1_cartesian_min_max :
    (∀ (D : Nat) (box : Box D) (point : Point D) (d : Fin D),
      (expand_cartesian std_less std_greater box point).min_corner d
          = min (box.min_corner d) (point d)
        ∧ (expand_cartesian std_less std_greater box point).max_corner d
          = max (box.max_corner d) (point d))
    ∧ expand_cartesian std_less std_greater (⟨![0, 0, 0], ![1, 1, 1]⟩ : Box 3) ![-1, 2, 1 / 2]
        = ⟨![-1, 0, 0], ![1, 2, 1]⟩ := by
  refine ⟨fun D box point d =>
    ⟨expand_cartesian_std_min box point d, expand_cartesian_std_max box point d⟩, ?_⟩
  apply Box.ext_corners <;> funext d <;>
    first
      | rw [expand_cartesian_std_min]
      | rw [expand_cartesian_std_max]
  all_goals fin_cases d <;> norm_num

/-- C8. Cartesian monotonic growth: after the expansion with the natural orderings,
`min_corner[d] <= point[d] <= max_corner[d]` for every `d < D`, whatever the input box
(also one with `min_corner[d] > max_corner[d]`). -/
theorem C8_cartesian_contains_point (D : Nat) (box : Box D) (point : Point D) (d : Fin D) :
    (expand_cartesian std_less std_greater box point).min_corner d ≤ point d
      ∧ point d ≤ (expand_cartesian std_less std_greater box point).max_corner d := by
  rw [expand_cartesian_std_min, expand_cartesian_std_max]
  exact ⟨min_le_right _ _, le_max_right _ _⟩

/-- C10. Cartesian idempotence: when `min_corner[d] <= point[d] <= max_corner[d]` for all
`d < D`, the expansion with the natural orderings returns the box unchanged, in every
coordinate of both corners. -/
theorem C10_cartesian_idempotent (D : Nat) (box : Box D) (point : Point D)
    (h : ∀ d : Fin D, box.min_corner d ≤ point d ∧ point d ≤ box.max_corner d) :
    expand_cartesian std_less std_greater box point = box := by
  apply Box.ext_corners <;> funext d
  · rw [expand_cartesian_std_min]; exact min_eq_left (h d).1
  · rw [expand_cartesian_std_max]; exact max_eq_left (h d).2

/-- The box `[(0,0),(4,4)]` contains `(1,3)` and is returned unchanged. -/
theorem C10_cartesian_idempotent_witness :
    (∀ d : Fin 2, (⟨![0, 0], ![4, 4]⟩ : Box 2).min_corner d ≤ ![1, 3] d
        ∧ ![1, 3] d ≤ (⟨![0, 0], ![4, 4]⟩ : Box 2).max_corner d)
      ∧ expand_cartesian std_less std_greater (⟨![0, 0], ![4, 4]⟩ : Box 2) ![1, 3]
        = ⟨![0, 0], ![4, 4]⟩ :=
  ⟨by intro d; fin_cases d <;> norm_num,
   C10_cartesian_idempotent 2 ⟨![0, 0], ![4, 4]⟩ ![1, 3]
     (by intro d; fin_cases d <;> norm_num)⟩

/-! ## The claims on the spheroid -/

/-- C2. Pole absorption: when the normalised latitude of the point has absolute value
`max_latitude`, the result keeps the normalised longitude bounds of the box, has
`lat_min = min(point.lat, box.lat_min)` and `lat_max = max(point.lat, box.lat_max)`, also
when the box is itself a pole; and any other point `point2` with the same normalised
latitude, whatever its longitude, gives the same box. -/
theorem C2_pole_absorption (U : Units) (box : Box 2) (point point2 : Point 2)
    (hpole : |p_lat U point| = U.max_latitude) (hsame : p_lat U point2 = p_lat U point) :
    (point_on_spheroid U box point).lon_min = b_lon_min U box
      ∧ (point_on_spheroid U box point).lon_max = b_lon_max U box
      ∧ (point_on_spheroid U box point).lat_min = min (p_lat U point) (b_lat_min U box)
      ∧ (point_on_spheroid U box point).lat_max = max (p_lat U point) (b_lat_max U box)
      ∧ point_on_spheroid U box point2 = point_on_spheroid U box point := by
  have h2 : point_at_pole U point2 := by unfold point_at_pole; rw [hsame]; exact hpole
  rw [point_on_spheroid_of_point_at_pole U box point hpole,
    point_on_spheroid_of_point_at_pole U box point2 h2, hsame]
  simp

/-- In degrees, the box `[lon 0..10, lat 80..85]` expanded by `(123, 90)` has `lon 0..10`
and `lat 80..90`, and `(-77, 90)` gives the same box. -/
theorem C2_pole_absorption_witness :
    |p_lat degree ![123, 90]| = degree.max_latitude
      ∧ p_lat degree ![-77, 90] = p_lat degree ![123, 90]
      ∧ (point_on_spheroid degree ⟨![0, 80], ![10, 85]⟩ ![123, 90]).lon_min = 0
      ∧ (point_on_spheroid degree ⟨![0, 80], ![10, 85]⟩ ![123, 90]).lon_max = 10
      ∧ (point_on_spheroid degree ⟨![0, 80], ![10, 85]⟩ ![123, 90]).lat_min = 80
      ∧ (point_on_spheroid degree ⟨![0, 80], ![10, 85]⟩ ![123, 90]).lat_max = 90
      ∧ point_on_spheroid degree ⟨![0, 80], ![10, 85]⟩ ![-77, 90]
          = point_on_spheroid degree ⟨![0, 80], ![10, 85]⟩ ![123, 90] := by
  have hpole : |p_lat degree ![123, 90]| = degree.max_latitude := by
    norm_num [p_lat, point_coordinates, degree]
  have hsame : p_lat degree ![-77, 90] = p_lat degree ![123, 90] := by
    norm_num [p_lat, point_coordinates, degree]
  obtain ⟨h1, h2, h3, h4, h5⟩ :=
    C2_pole_absorption degree ⟨![0, 80], ![10, 85]⟩ ![123, 90] ![-77, 90] hpole hsame
  refine ⟨hpole, hsame, ?_, ?_, ?_, ?_, h5⟩
  · rw [h1]; norm_num [b_lon_min, box_coordinates, degree, wrap_longitude_of_mem]
  · rw [h2]; norm_num [b_lon_max, box_coordinates, degree, wrap_longitude_of_mem]
  · rw [h3]; norm_num [b_lat_min, p_lat, point_coordinates, box_coordinates, degree]
  · rw [h4]; norm_num [b_lat_max, p_lat, point_coordinates, box_coordinates, degree]

/-- C3. Degenerate pole box: when the normalised box has `lat_min = lat_max` with
`|lat_min| = max_latitude` and the point is not a pole, the result has
`lon_min = lon_max =` the normalised longitude of the point,
`lat_min = min(point.lat, box.lat_min)` and `lat_max = max(point.lat, box.lat_max)`; and
any other box `box2` with the same normalised latitudes, whatever its longitudes, gives
the same result. -/
theorem C3_degenerate_pole_box (U : Units) (box box2 : Box 2) (point : Point 2)
    (hlat : b_lat_min U box = b_lat_max U box) (hpole : |b_lat_min U box| = U.max_latitude)
    (hpoint : |p_lat U point| ≠ U.max_latitude)
    (hmin : b_lat_min U box2 = b_lat_min U box) (hmax : b_lat_max U box2 = b_lat_max U box) :
    (point_on_spheroid U box point).lon_min = p_lon U point
      ∧ (point_on_spheroid U box point).lon_max = p_lon U point
      ∧ (point_on_spheroid U box point).lat_min = min (p_lat U point) (b_lat_min U box)
      ∧ (point_on_spheroid U box point).lat_max = max (p_lat U point) (b_lat_max U box)
      ∧ point_on_spheroid U box2 point = point_on_spheroid U box point := by
  have hb : box_at_pole U box := ⟨hlat, hpole⟩
  have hb2 : box_at_pole U box2 := by
    unfold box_at_pole; rw [hmin, hmax]; exact ⟨hlat, hpole⟩
  rw [point_on_spheroid_of_box_at_pole U box point hpoint hb,
    point_on_spheroid_of_box_at_pole U box2 point hpoint hb2, hmin, hmax]
  simp

/-- In degrees, the box `[lon 5..5, lat 90..90]` expanded by `(-40, 60)` has
`lon -40..-40` and `lat 60..90`, and so has the box `[lon 20..30, lat 90..90]`. -/
theorem C3_degenerate_pole_box_witness :
    b_lat_min degree ⟨![5, 90], ![5, 90]⟩ = b_lat_max degree ⟨![5, 90], ![5, 90]⟩
      ∧ |b_lat_min degree ⟨![5, 90], ![5, 90]⟩| = degree.max_latitude
      ∧ |p_lat degree ![-40, 60]| ≠ degree.max_latitude
      ∧ (point_on_spheroid degree ⟨![5, 90], ![5, 90]⟩ ![-40, 60]).lon_min = -40
      ∧ (point_on_spheroid degree ⟨![5, 90], ![5, 90]⟩ ![-40, 60]).lon_max = -40
      ∧ (point_on_spheroid degree ⟨![5, 90], ![5, 90]⟩ ![-40, 60]).lat_min = 60
      ∧ (point_on_spheroid degree ⟨![5, 90], ![5, 90]⟩ ![-40, 60]).lat_max = 90
      ∧ point_on_spheroid degree ⟨![20, 90], ![30, 90]⟩ ![-40, 60]
          = point_on_spheroid degree ⟨![5, 90], ![5, 90]⟩ ![-40, 60] := by
  have hlat : b_lat_min degree ⟨![5, 90], ![5, 90]⟩
      = b_lat_max degree ⟨![5, 90], ![5, 90]⟩ := by
    norm_num [b_lat_min, b_lat_max, box_coordinates, degree]
  have hpole : |b_lat_min degree ⟨![5, 90], ![5, 90]⟩| = degree.max_latitude := by
    norm_num [b_lat_min, box_coordinates, degree]
  have hpoint : |p_lat degree ![-40, 60]| ≠ degree.max_latitude := by
    norm_num [p_lat, point_coordinates, degree]
  obtain ⟨h1, h2, h3, h4, h5⟩ :=
    C3_degenerate_pole_box degree ⟨![5, 90], ![5, 90]⟩ ⟨![20, 90], ![30, 90]⟩ ![-40, 60]
      hlat hpole hpoint
      (by norm_num [b_lat_min, box_coordinates, degree])
      (by norm_num [b_lat_max, box_coordinates, degree])
  refine ⟨hlat, hpole, hpoint, ?_, ?_, ?_, ?_, h5⟩
  · rw [h1]; norm_num [p_lon, point_coordinates, degree, wrap_longitude_of_mem]
  · rw [h2]; norm_num [p_lon, point_coordinates, degree, wrap_longitude_of_mem]
  · rw [h3]; norm_num [b_lat_min, p_lat, point_coordinates, box_coordinates, degree]
  · rw [h4]; norm_num [b_lat_max, p_lat, point_coordinates, box_coordinates, degree]

/-- C4. Longitude update, low side, in the general case (point not a pole, box not a
degenerate pole): for a normalised point longitude `lon < lon_min` and `lon2 = lon + P`,
if `lon2 <= lon_max` both longitude bounds are unchanged; if `lon2 > lon_max` and
`lon_min - lon < lon2 - lon_max` the result is `lon_min := lon` with `lon_max` unchanged;
otherwise the result is `lon_max := lon2` with `lon_min` unchanged. -/
theorem C4_longitude_low_side (U : Units) (box : Box 2) (point : Point 2)
    (hpoint : ¬ point_at_pole U point) (hbox : ¬ box_at_pole U box)
    (hlow : p_lon U point < b_lon_min U box) :
    (p_lon U point + U.period ≤ b_lon_max U box →
        (point_on_spheroid U box point).lon_min = b_lon_min U box
          ∧ (point_on_spheroid U box point).lon_max = b_lon_max U box)
      ∧ (p_lon U point + U.period > b_lon_max U box →
          b_lon_min U box - p_lon U point < p_lon U point + U.period - b_lon_max U box →
        (point_on_spheroid U box point).lon_min = p_lon U point
          ∧ (point_on_spheroid U box point).lon_max = b_lon_max U box)
      ∧ (p_lon U point + U.period > b_lon_max U box →
          ¬ (b_lon_min U box - p_lon U point < p_lon U point + U.period - b_lon_max U box) →
        (point_on_spheroid U box point).lon_min = b_lon_min U box
          ∧ (point_on_spheroid U box point).lon_max = p_lon U point + U.period) := by
  rw [point_on_spheroid_general U box point hpoint hbox, update_longitudes_eq]
  simp only [assign_values_lon_min, assign_values_lon_max, if_pos hlow]
  refine ⟨fun h => ?_, fun h1 h2 => ?_, fun h1 h2 => ?_⟩
  · rw [if_neg (not_lt.mpr h)]; exact ⟨rfl, rfl⟩
  · rw [if_pos h1, if_pos h2]; exact ⟨rfl, rfl⟩
  · rw [if_pos h1, if_neg h2]; exact ⟨rfl, rfl⟩

/-- In degrees, the box `[lon 170..175, lat 0..0]` expanded by `(-175, 0)` has
`lon_min = 170` and `lon_max = 185`. -/
theorem C4_longitude_low_side_witness :
    ¬ point_at_pole degree ![-175, 0]
      ∧ ¬ box_at_pole degree ⟨![170, 0], ![175, 0]⟩
      ∧ p_lon degree ![-175, 0] < b_lon_min degree ⟨![170, 0], ![175, 0]⟩
      ∧ (point_on_spheroid degree ⟨![170, 0], ![175, 0]⟩ ![-175, 0]).lon_min = 170
      ∧ (point_on_spheroid degree ⟨![170, 0], ![175, 0]⟩ ![-175, 0]).lon_max = 185 := by
  have hpoint : ¬ point_at_pole degree ![-175, 0] := by
    norm_num [point_at_pole, p_lat, point_coordinates, degree]
  have hbox : ¬ box_at_pole degree ⟨![170, 0], ![175, 0]⟩ := by
    norm_num [box_at_pole, b_lat_min, b_lat_max, box_coordinates, degree]
  have hp : p_lon degree ![-175, 0] = -175 := by
    norm_num [p_lon, point_coordinates, degree, wrap_longitude_of_mem]
  have hmin : b_lon_min degree ⟨![170, 0], ![175, 0]⟩ = 170 := by
    norm_num [b_lon_min, box_coordinates, degree, wrap_longitude_of_mem]
  have hmax : b_lon_max degree ⟨![170, 0], ![175, 0]⟩ = 175 := by
    norm_num [b_lon_max, box_coordinates, degree, wrap_longitude_of_mem]
  have hP : degree.period = 360 := rfl
  have hlow : p_lon degree ![-175, 0] < b_lon_min degree ⟨![170, 0], ![175, 0]⟩ := by
    rw [hp, hmin]; norm_num
  have h := (C4_longitude_low_side degree ⟨![170, 0], ![175, 0]⟩ ![-175, 0]
    hpoint hbox hlow).2.2 (by rw [hp, hmax, hP]; norm_num)
      (by rw [hp, hmin, hmax, hP]; norm_num)
  rw [hp, hmin, hP] at h
  exact ⟨hpoint, hbox, hlow, h.1, by rw [h.2]; norm_num⟩

/-- C5. Longitude update, high side, in the general case: for a normalised point longitude
`lon >= lon_min` with `lon > lon_max`, if `lon_min < 0` and
`lon - lon_max > P - lon + lon_min` the result is `lon_min := lon` and
`lon_max := lon_max + P`; otherwise the result is `lon_max := lon` with `lon_min`
unchanged. -/
theorem C5_longitude_high_side (U : Units) (box : Box 2) (point : Point 2)
    (hpoint : ¬ point_at_pole U point) (hbox : ¬ box_at_pole U box)
    (hmin : b_lon_min U box ≤ p_lon U point) (hhigh : b_lon_max U box < p_lon U point) :
    ((b_lon_min U box < 0
          ∧ p_lon U point - b_lon_max U box > U.period - p_lon U point + b_lon_min U box) →
        (point_on_spheroid U box point).lon_min = p_lon U point
          ∧ (point_on_spheroid U box point).lon_max = b_lon_max U box + U.period)
      ∧ (¬ (b_lon_min U box < 0
          ∧ p_lon U point - b_lon_max U box > U.period - p_lon U point + b_lon_min U box) →
        (point_on_spheroid U box point).lon_min = b_lon_min U box
          ∧ (point_on_spheroid U box point).lon_max = p_lon U point) := by
  rw [point_on_spheroid_general U box point hpoint hbox, update_longitudes_eq]
  simp only [assign_values_lon_min, assign_values_lon_max, if_neg (not_lt.mpr hmin),
    if_pos hhigh]
  refine ⟨fun h => ?_, fun h => ?_⟩
  · rw [if_pos h]; exact ⟨rfl, rfl⟩
  · rw [if_neg h]; exact ⟨rfl, rfl⟩

/-- In degrees, for the box `[lon -10..10, lat 0..0]` and the point `(170, 0)` wrapping is
not cheaper (`170 - 10 = 160` is not more than `360 - 170 - 10 = 180`), and the result is
`lon_min = -10`, `lon_max = 170`. -/
theorem C5_longitude_high_side_witness :
    ¬ point_at_pole degree ![170, 0]
      ∧ ¬ box_at_pole degree ⟨![-10, 0], ![10, 0]⟩
      ∧ b_lon_min degree ⟨![-10, 0], ![10, 0]⟩ ≤ p_lon degree ![170, 0]
      ∧ b_lon_max degree ⟨![-10, 0], ![10, 0]⟩ < p_lon degree ![170, 0]
      ∧ (point_on_spheroid degree ⟨![-10, 0], ![10, 0]⟩ ![170, 0]).lon_min = -10
      ∧ (point_on_spheroid degree ⟨![-10, 0], ![10, 0]⟩ ![170, 0]).lon_max = 170 := by
  have hpoint : ¬ point_at_pole degree ![170, 0] := by
    norm_num [point_at_pole, p_lat, point_coordinates, degree]
  have hbox : ¬ box_at_pole degree ⟨![-10, 0], ![10, 0]⟩ := by
    norm_num [box_at_pole, b_lat_min, b_lat_max, box_coordinates, degree]
  have hp : p_lon degree ![170, 0] = 170 := by
    norm_num [p_lon, point_coordinates, degree, wrap_longitude_of_mem]
  have hmin : b_lon_min degree ⟨![-10, 0], ![10, 0]⟩ = -10 := by
    norm_num [b_lon_min, box_coordinates, degree, wrap_longitude_of_mem]
  have hmax : b_lon_max degree ⟨![-10, 0], ![10, 0]⟩ = 10 := by
    norm_num [b_lon_max, box_coordinates, degree, wrap_longitude_of_mem]
  have hP : degree.period = 360 := rfl
  have h1 : b_lon_min degree ⟨![-10, 0], ![10, 0]⟩ ≤ p_lon degree ![170, 0] := by
    rw [hp, hmin]; norm_num
  have h2 : b_lon_max degree ⟨![-10, 0], ![10, 0]⟩ < p_lon degree ![170, 0] := by
    rw [hp, hmax]; norm_num
  have h := (C5_longitude_high_side degree ⟨![-10, 0], ![10, 0]⟩ ![170, 0]
    hpoint hbox h1 h2).2 (by rw [hp, hmin, hmax, hP]; norm_num)
  rw [hp, hmin] at h
  exact ⟨hpoint, hbox, h1, h2, h.1, h.2⟩

/-- C6. The shortest-arc choice minimises the resulting span: for a canonical box that is
not a degenerate pole and a non-pole point whose normalised longitude `lon` is in
`(-P/2, P/2]` and lies outside the longitude interval of the box (neither `lon` nor `lon + P`
is in `[lon_min, lon_max]`), the point is below `lon_min` or above `lon_max`; when
`lon < lon_min` the new span is the smaller of the spans of `[lon, lon_max]` and
`[lon_min, lon + P]`; when `lon > lon_max` it is the smaller of the spans of `[lon_min, lon]`
and `[lon, lon_max + P]`, so the guard `lon_min < 0` never selects the longer candidate. -/
theorem C6_shortest_arc (U : Units) (box : Box 2) (point : Point 2)
    (hpoint : ¬ point_at_pole U point) (hbox : ¬ box_at_pole U box)
    (hcanon : canonical_box U box) (hrange : longitude_in_range U point)
    (hout : ¬ longitude_within U.period (p_lon U point) (b_lon_min U box) (b_lon_max U box)) :
    (p_lon U point < b_lon_min U box ∨ b_lon_max U box < p_lon U point)
      ∧ (p_lon U point < b_lon_min U box →
          (point_on_spheroid U box point).lon_max - (point_on_spheroid U box point).lon_min
            = min (b_lon_max U box - p_lon U point)
                (p_lon U point + U.period - b_lon_min U box))
      ∧ (b_lon_max U box < p_lon U point →
          (point_on_spheroid U box point).lon_max - (point_on_spheroid U box point).lon_min
            = min (p_lon U point - b_lon_min U box)
                (b_lon_max U box + U.period - p_lon U point)) := by
  obtain ⟨hc1, hc2, hc3⟩ := hcanon
  obtain ⟨hr1, hr2⟩ := hrange
  unfold longitude_within at hout
  rw [not_or, not_and_or, not_and_or] at hout
  obtain ⟨ho1, ho2⟩ := hout
  rw [point_on_spheroid_general U box point hpoint hbox, update_longitudes_eq]
  simp only [assign_values_lon_min, assign_values_lon_max]
  refine ⟨?_, fun hlow => ?_, fun hhigh => ?_⟩
  · rcases ho1 with h | h
    · exact Or.inl (not_le.mp h)
    · exact Or.inr (not_le.mp h)
  · have hshift : b_lon_max U box < p_lon U point + U.period := by
      rcases ho2 with h | h
      · exact absurd (by linarith) h
      · exact not_le.mp h
    rw [if_pos hlow, if_pos hshift]
    split_ifs with hc
    · rw [min_eq_left]; linarith
    · rw [min_eq_right]; linarith
  · have hnl : ¬ p_lon U point < b_lon_min U box := by linarith
    rw [if_neg hnl, if_pos hhigh]
    split_ifs with hc
    · rw [min_eq_right]; linarith [hc.2]
    · rw [min_eq_left]
      by_contra hlt
      exact hc ⟨by linarith, by linarith⟩

/-- In degrees, the box `[lon 170..175, lat 0..0]` and the point `(-175, 0)`: the new span
is `15 = min(350, 15)`. -/
theorem C6_shortest_arc_witness :
    ¬ point_at_pole degree ![-175, 0]
      ∧ ¬ box_at_pole degree ⟨![170, 0], ![175, 0]⟩
      ∧ canonical_box degree ⟨![170, 0], ![175, 0]⟩
      ∧ longitude_in_range degree ![-175, 0]
      ∧ ¬ longitude_within degree.period (p_lon degree ![-175, 0])
            (b_lon_min degree ⟨![170, 0], ![175, 0]⟩) (b_lon_max degree ⟨![170, 0], ![175, 0]⟩)
      ∧ (point_on_spheroid degree ⟨![170, 0], ![175, 0]⟩ ![-175, 0]).lon_max
          - (point_on_spheroid degree ⟨![170, 0], ![175, 0]⟩ ![-175, 0]).lon_min = 15 := by
  have hpoint : ¬ point_at_pole degree ![-175, 0] := by
    norm_num [point_at_pole, p_lat, point_coordinates, degree]
  have hbox : ¬ box_at_pole degree ⟨![170, 0], ![175, 0]⟩ := by
    norm_num [box_at_pole, b_lat_min, b_lat_max, box_coordinates, degree]
  have hp : p_lon degree ![-175, 0] = -175 := by
    norm_num [p_lon, point_coordinates, degree, wrap_longitude_of_mem]
  have hmin : b_lon_min degree ⟨![170, 0], ![175, 0]⟩ = 170 := by
    norm_num [b_lon_min, box_coordinates, degree, wrap_longitude_of_mem]
  have hmax : b_lon_max degree ⟨![170, 0], ![175, 0]⟩ = 175 := by
    norm_num [b_lon_max, box_coordinates, degree, wrap_longitude_of_mem]
  have hP : degree.period = 360 := rfl
  have hcanon : canonical_box degree ⟨![170, 0], ![175, 0]⟩ := by
    unfold canonical_box; rw [hmin, hmax, hP]; norm_num
  have hrange : longitude_in_range degree ![-175, 0] := by
    unfold longitude_in_range; rw [hp, hP]; norm_num
  have hout : ¬ longitude_within degree.period (p_lon degree ![-175, 0])
      (b_lon_min degree ⟨![170, 0], ![175, 0]⟩) (b_lon_max degree ⟨![170, 0], ![175, 0]⟩) := by
    unfold longitude_within; rw [hp, hmin, hmax, hP]; norm_num
  have h := (C6_shortest_arc degree ⟨![170, 0], ![175, 0]⟩ ![-175, 0]
    hpoint hbox hcanon hrange hout).2.1 (by rw [hp, hmin]; norm_num)
  rw [hp, hmin, hmax, hP] at h
  exact ⟨hpoint, hbox, hcanon, hrange, hout, by rw [h]; norm_num⟩

/-- C7, as stated, fails at a pole point. In degrees the canonical box
`[lon 5..10, lat 80..85]` and the point `(0, 90)`, whose normalised coordinates are in
range: the expansion keeps `lon 5..10`, and neither `0` nor `0 + 360` lies in `[5, 10]`. -/
theorem C7_angular_contains_point_counterexample :
    canonical_box degree ⟨![5, 80], ![10, 85]⟩
      ∧ b_lat_min degree ⟨![5, 80], ![10, 85]⟩ ≤ b_lat_max degree ⟨![5, 80], ![10, 85]⟩
      ∧ longitude_in_range degree ![0, 90]
      ∧ latitude_in_range degree ![0, 90]
      ∧ (point_on_spheroid degree ⟨![5, 80], ![10, 85]⟩ ![0, 90]).lon_min = 5
      ∧ (point_on_spheroid degree ⟨![5, 80], ![10, 85]⟩ ![0, 90]).lon_max = 10
      ∧ ¬ longitude_within degree.period (p_lon degree ![0, 90])
            (point_on_spheroid degree ⟨![5, 80], ![10, 85]⟩ ![0, 90]).lon_min
            (point_on_spheroid degree ⟨![5, 80], ![10, 85]⟩ ![0, 90]).lon_max := by
  have hp : p_lon degree ![0, 90] = 0 := by
    norm_num [p_lon, point_coordinates, degree, wrap_longitude_of_mem]
  have hl : p_lat degree ![0, 90] = 90 := by
    norm_num [p_lat, point_coordinates, degree]
  have hmin : b_lon_min degree ⟨![5, 80], ![10, 85]⟩ = 5 := by
    norm_num [b_lon_min, box_coordinates, degree, wrap_longitude_of_mem]
  have hmax : b_lon_max degree ⟨![5, 80], ![10, 85]⟩ = 10 := by
    norm_num [b_lon_max, box_coordinates, degree, wrap_longitude_of_mem]
  have hP : degree.period = 360 := rfl
  have hM : degree.max_latitude = 90 := rfl
  have hpole : point_at_pole degree ![0, 90] := by
    unfold point_at_pole; rw [hl, hM]; norm_num
  rw [point_on_spheroid_of_point_at_pole degree _ _ hpole]
  simp only [assign_values_lon_min, assign_values_lon_max]
  unfold canonical_box longitude_in_range latitude_in_range longitude_within
  rw [hp, hl, hmin, hmax, hP, hM]
  norm_num [b_lat_min, b_lat_max, box_coordinates, degree]

/-- C7, amended. For a canonical box and a point whose normalised longitude is in
`(-P/2, P/2]`, the expanded box contains the latitude of the point,
`lat_min <= point.lat <= lat_max`, on every path; and when the point is not a pole its
longitude lies in the new longitude interval, as it is or shifted by one period. -/
theorem C7_angular_contains_point_amended (U : Units) (box : Box 2) (point : Point 2)
    (hcanon : canonical_box U box) (hrange : longitude_in_range U point) :
    (point_on_spheroid U box point).lat_min ≤ p_lat U point
      ∧ p_lat U point ≤ (point_on_spheroid U box point).lat_max
      ∧ (¬ point_at_pole U point →
          longitude_within U.period (p_lon U point)
            (point_on_spheroid U box point).lon_min
            (point_on_spheroid U box point).lon_max) := by
  obtain ⟨hc1, hc2, hc3⟩ := hcanon
  obtain ⟨hr1, hr2⟩ := hrange
  by_cases hpoint : point_at_pole U point
  · rw [point_on_spheroid_of_point_at_pole U box point hpoint]
    exact ⟨min_le_left _ _, le_max_left _ _, fun h => absurd hpoint h⟩
  · by_cases hbox : box_at_pole U box
    · rw [point_on_spheroid_of_box_at_pole U box point hpoint hbox]
      exact ⟨min_le_left _ _, le_max_left _ _, fun _ => Or.inl ⟨le_refl _, le_refl _⟩⟩
    · rw [point_on_spheroid_general U box point hpoint hbox, update_longitudes_eq]
      refine ⟨min_le_right _ _, le_max_right _ _, fun _ => ?_⟩
      simp only [assign_values_lon_min, assign_values_lon_max]
      unfold longitude_within
      split_ifs with h1 h2 h3 h4 h5 <;> dsimp only
      · exact Or.inl ⟨le_refl _, by linarith⟩
      · exact Or.inr ⟨by linarith, le_refl _⟩
      · exact Or.inr ⟨by linarith, by linarith⟩
      · exact Or.inl ⟨le_refl _, by linarith⟩
      · exact Or.inl ⟨by linarith, le_refl _⟩
      · exact Or.inl ⟨by linarith, by linarith⟩

/-- In degrees, the box `[lon 170..175, lat 0..0]` expanded by `(-175, 10)`: the result
contains latitude `10`, and longitude `-175` shifted by `360` lies in `[170, 185]`. -/
theorem C7_angular_contains_point_amended_witness :
    canonical_box degree ⟨![170, 0], ![175, 0]⟩
      ∧ longitude_in_range degree ![-175, 10]
      ∧ ¬ point_at_pole degree ![-175, 10]
      ∧ (point_on_spheroid degree ⟨![170, 0], ![175, 0]⟩ ![-175, 10]).lat_min
          ≤ p_lat degree ![-175, 10]
      ∧ p_lat degree ![-175, 10]
          ≤ (point_on_spheroid degree ⟨![170, 0], ![175, 0]⟩ ![-175, 10]).lat_max
      ∧ longitude_within degree.period (p_lon degree ![-175, 10])
          (point_on_spheroid degree ⟨![170, 0], ![175, 0]⟩ ![-175, 10]).lon_min
          (point_on_spheroid degree ⟨![170, 0], ![175, 0]⟩ ![-175, 10]).lon_max := by
  have hp : p_lon degree ![-175, 10] = -175 := by
    norm_num [p_lon, point_coordinates, degree, wrap_longitude_of_mem]
  have hmin : b_lon_min degree ⟨![170, 0], ![175, 0]⟩ = 170 := by
    norm_num [b_lon_min, box_coordinates, degree, wrap_longitude_of_mem]
  have hmax : b_lon_max degree ⟨![170, 0], ![175, 0]⟩ = 175 := by
    norm_num [b_lon_max, box_coordinates, degree, wrap_longitude_of_mem]
  have hP : degree.period = 360 := rfl
  have hcanon : canonical_box degree ⟨![170, 0], ![175, 0]⟩ := by
    unfold canonical_box; rw [hmin, hmax, hP]; norm_num
  have hrange : longitude_in_range degree ![-175, 10] := by
    unfold longitude_in_range; rw [hp, hP]; norm_num
  have hpoint : ¬ point_at_pole degree ![-175, 10] := by
    norm_num [point_at_pole, p_lat, point_coordinates, degree]
  have h := C7_angular_contains_point_amended degree ⟨![170, 0], ![175, 0]⟩ ![-175, 10]
    hcanon hrange
  exact ⟨hcanon, hrange, hpoint, h.1, h.2.1, h.2.2 hpoint⟩

/-- C9, as stated, fails on a box that is not in normal form. In degrees the box
`[lon 190..200, lat 0..0]` contains the point `(-165, 0)` by the formula of the claim
(`190 <= -165 + 360 <= 200`), but the expansion writes back the normalised bounds
`lon -170..-160`: both longitude bounds of the box change. -/
theorem C9_angular_idempotent_counterexample :
    ((⟨![190, 0], ![200, 0]⟩ : Box 2).lat_min ≤ p_lat degree ![-165, 0]
        ∧ p_lat degree ![-165, 0] ≤ (⟨![190, 0], ![200, 0]⟩ : Box 2).lat_max)
      ∧ longitude_within degree.period (p_lon degree ![-165, 0])
          (⟨![190, 0], ![200, 0]⟩ : Box 2).lon_min (⟨![190, 0], ![200, 0]⟩ : Box 2).lon_max
      ∧ point_on_spheroid degree ⟨![190, 0], ![200, 0]⟩ ![-165, 0]
          = ⟨![-170, 0], ![-160, 0]⟩
      ∧ (point_on_spheroid degree ⟨![190, 0], ![200, 0]⟩ ![-165, 0]).lon_min
          ≠ (⟨![190, 0], ![200, 0]⟩ : Box 2).lon_min
      ∧ (point_on_spheroid degree ⟨![190, 0], ![200, 0]⟩ ![-165, 0]).lon_max
          ≠ (⟨![190, 0], ![200, 0]⟩ : Box 2).lon_max := by
  have hP : degree.period = 360 := rfl
  have hM : degree.max_latitude = 90 := rfl
  have hw1 : wrap_longitude 360 190 = -170 := by
    have hc : ⌈((190 : ℚ) - 360 / 2) / 360⌉ = 1 := by
      rw [Int.ceil_eq_iff]; norm_num
    simp only [wrap_longitude, hc]; norm_num
  have hw2 : wrap_longitude 360 200 = -160 := by
    have hc : ⌈((200 : ℚ) - 360 / 2) / 360⌉ = 1 := by
      rw [Int.ceil_eq_iff]; norm_num
    simp only [wrap_longitude, hc]; norm_num
  have hbc : box_coordinates degree ⟨![190, 0], ![200, 0]⟩ = (-170, 0, -160, 0) := by
    norm_num [box_coordinates, degree, hw1, hw2]
  have hpc := degree_point_coordinates (-165) 0 (by norm_num) (by norm_num)
  have hp : p_lon degree ![-165, 0] = -165 := by unfold p_lon; rw [hpc]
  have hl : p_lat degree ![-165, 0] = 0 := by unfold p_lat; rw [hpc]
  have hpoint : ¬ point_at_pole degree ![-165, 0] := by
    unfold point_at_pole; rw [hl, hM]; norm_num
  have hbox : ¬ box_at_pole degree ⟨![190, 0], ![200, 0]⟩ := by
    unfold box_at_pole b_lat_min b_lat_max; rw [hbc, hM]; norm_num
  have hr : point_on_spheroid degree ⟨![190, 0], ![200, 0]⟩ ![-165, 0]
      = ⟨![-170, 0], ![-160, 0]⟩ := by
    rw [point_on_spheroid_general degree _ _ hpoint hbox]
    unfold b_lon_min b_lat_min b_lon_max b_lat_max
    rw [hbc, hp, hl, hP]
    norm_num [update_longitudes_eq, assign_values]
  rw [hr, hp, hl, hP]
  norm_num [longitude_within, Box.lon_min, Box.lon_max, Box.lat_min, Box.lat_max]

/-- C9, amended. Angular idempotence on the normalised box: when the point is contained in
the box as the box normaliser returns it (`lat_min <= point.lat <= lat_max`, and the
normalised longitude `lon` satisfies `lon_min <= lon <= lon_max` or
`lon_min <= lon + P <= lon_max`), the expansion leaves all four bounds equal to those
normalised bounds; and a box that its normaliser leaves as it is comes back unchanged. -/
theorem C9_angular_idempotent_amended (U : Units) (box : Box 2) (point : Point 2)
    (hlat : b_lat_min U box ≤ p_lat U point ∧ p_lat U point ≤ b_lat_max U box)
    (hlon : longitude_within U.period (p_lon U point) (b_lon_min U box) (b_lon_max U box)) :
    ((point_on_spheroid U box point).lon_min = b_lon_min U box
        ∧ (point_on_spheroid U box point).lat_min = b_lat_min U box
        ∧ (point_on_spheroid U box point).lon_max = b_lon_max U box
        ∧ (point_on_spheroid U box point).lat_max = b_lat_max U box)
      ∧ (box_coordinates U box
            = (box.min_corner 0, box.min_corner 1, box.max_corner 0, box.max_corner 1) →
          point_on_spheroid U box point = box) := by
  have hP := U.period_pos
  have key : point_on_spheroid U box point
      = assign_values (b_lon_min U box) (b_lat_min U box) (b_lon_max U box)
          (b_lat_max U box) := by
    by_cases hpoint : point_at_pole U point
    · rw [point_on_spheroid_of_point_at_pole U box point hpoint, min_eq_right hlat.1,
        max_eq_right hlat.2]
    · by_cases hbox : box_at_pole U box
      · exfalso
        apply hpoint
        unfold point_at_pole
        have : p_lat U point = b_lat_min U box := le_antisymm (hbox.1 ▸ hlat.2) hlat.1
        rw [this]; exact hbox.2
      · rw [point_on_spheroid_general U box point hpoint hbox, update_longitudes_eq,
          min_eq_left hlat.1, max_eq_left hlat.2]
        unfold longitude_within at hlon
        have hl : (if p_lon U point < b_lon_min U box then
              if b_lon_max U box < p_lon U point + U.period then
                if b_lon_min U box - p_lon U point
                    < p_lon U point + U.period - b_lon_max U box then
                  (p_lon U point, b_lon_max U box)
                else (b_lon_min U box, p_lon U point + U.period)
              else (b_lon_min U box, b_lon_max U box)
            else if b_lon_max U box < p_lon U point then
              if b_lon_min U box < 0
                  ∧ U.period - p_lon U point + b_lon_min U box
                    < p_lon U point - b_lon_max U box then
                (p_lon U point, b_lon_max U box + U.period)
              else (b_lon_min U box, p_lon U point)
            else (b_lon_min U box, b_lon_max U box))
            = (b_lon_min U box, b_lon_max U box) := by
          rcases hlon with ⟨h1, h2⟩ | ⟨h1, h2⟩
          · rw [if_neg (not_lt.mpr h1), if_neg (not_lt.mpr h2)]
          · by_cases hlow : p_lon U point < b_lon_min U box
            · rw [if_pos hlow, if_neg (not_lt.mpr h2)]
            · rw [if_neg hlow, if_neg (by linarith)]
        rw [hl]
  refine ⟨by rw [key]; simp, fun hid => ?_⟩
  rw [key]
  unfold b_lon_min b_lat_min b_lon_max b_lat_max
  rw [hid]
  apply Box.ext_corners <;> funext d <;> fin_cases d <;> rfl

/-- In degrees, the box `[lon 170..185, lat 0..20]` contains the point `(-175, 10)` through
the shifted longitude `185`, and the expansion returns the box itself. -/
theorem C9_angular_idempotent_amended_witness :
    (b_lat_min degree ⟨![170, 0], ![185, 20]⟩ ≤ p_lat degree ![-175, 10]
        ∧ p_lat degree ![-175, 10] ≤ b_lat_max degree ⟨![170, 0], ![185, 20]⟩)
      ∧ longitude_within degree.period (p_lon degree ![-175, 10])
          (b_lon_min degree ⟨![170, 0], ![185, 20]⟩) (b_lon_max degree ⟨![170, 0], ![185, 20]⟩)
      ∧ point_on_spheroid degree ⟨![170, 0], ![185, 20]⟩ ![-175, 10]
          = ⟨![170, 0], ![185, 20]⟩ := by
  have hw : wrap_longitude 360 185 = -175 := by
    have hc : ⌈((185 : ℚ) - 360 / 2) / 360⌉ = 1 := by
      rw [Int.ceil_eq_iff]; norm_num
    simp only [wrap_longitude, hc]; norm_num
  have hbc : box_coordinates degree ⟨![170, 0], ![185, 20]⟩ = (170, 0, 185, 20) := by
    norm_num [box_coordinates, degree, wrap_longitude_of_mem, hw]
  have hp : p_lon degree ![-175, 10] = -175 := by
    norm_num [p_lon, point_coordinates, degree, wrap_longitude_of_mem]
  have hl : p_lat degree ![-175, 10] = 10 := by
    norm_num [p_lat, point_coordinates, degree]
  have hP : degree.period = 360 := rfl
  have hlat : b_lat_min degree ⟨![170, 0], ![185, 20]⟩ ≤ p_lat degree ![-175, 10]
      ∧ p_lat degree ![-175, 10] ≤ b_lat_max degree ⟨![170, 0], ![185, 20]⟩ := by
    unfold b_lat_min b_lat_max; rw [hbc, hl]; norm_num
  have hlon : longitude_within degree.period (p_lon degree ![-175, 10])
      (b_lon_min degree ⟨![170, 0], ![185, 20]⟩)
      (b_lon_max degree ⟨![170, 0], ![185, 20]⟩) := by
    unfold longitude_within b_lon_min b_lon_max; rw [hbc, hp, hP]; norm_num
  exact ⟨hlat, hlon,
    (C9_angular_idempotent_amended degree ⟨![170, 0], ![185, 20]⟩ ![-175, 10] hlat hlon).2
      (by rw [hbc]; simp)⟩

/-! ## Further claims on the Cartesian loop -/

/-- C12. Strategy injection: for a box with `min_corner[d] <= max_corner[d]` on all axes,
reversing the ordering on axis `k` only (`less := >`, `greater := <`) flips the bound that
is extended there: a coordinate above `max_corner[k]` replaces `min_corner[k]` and leaves
`max_corner[k]`, a coordinate below `min_corner[k]` replaces `max_corner[k]` and leaves
`min_corner[k]`; on every axis `d != k` both bounds are those of the all-natural
expansion. -/
theorem C12_strategy_injection (D : Nat) (box : Box D) (point : Point D) (k : Fin D)
    (hbox : ∀ d : Fin D, box.min_corner d ≤ box.max_corner d) :
    (point k > box.max_corner k →
        (expand_cartesian (less_reversed_on k) (greater_reversed_on k) box point).min_corner k
            = point k
          ∧ (expand_cartesian (less_reversed_on k) (greater_reversed_on k) box point).max_corner k
            = box.max_corner k)
      ∧ (point k < box.min_corner k →
        (expand_cartesian (less_reversed_on k) (greater_reversed_on k) box point).max_corner k
            = point k
          ∧ (expand_cartesian (less_reversed_on k) (greater_reversed_on k) box point).min_corner k
            = box.min_corner k)
      ∧ (∀ d : Fin D, d ≠ k →
        (expand_cartesian (less_reversed_on k) (greater_reversed_on k) box point).min_corner d
            = (expand_cartesian std_less std_greater box point).min_corner d
          ∧ (expand_cartesian (less_reversed_on k) (greater_reversed_on k) box point).max_corner d
            = (expand_cartesian std_less std_greater box point).max_corner d) := by
  have hk := hbox k
  refine ⟨fun h => ?_, fun h => ?_, fun d hd => ?_⟩
  · rw [expand_cartesian_min_corner, expand_cartesian_max_corner]
    simp only [less_reversed_on, greater_reversed_on, if_true, decide_eq_true_eq, gt_iff_lt]
    rw [if_pos (lt_of_le_of_lt hk h), if_neg (not_lt.mpr (le_of_lt h))]
    exact ⟨rfl, rfl⟩
  · rw [expand_cartesian_min_corner, expand_cartesian_max_corner]
    simp only [less_reversed_on, greater_reversed_on, if_true, decide_eq_true_eq, gt_iff_lt]
    rw [if_pos (lt_of_lt_of_le h hk), if_neg (not_lt.mpr (le_of_lt h))]
    exact ⟨rfl, rfl⟩
  · rw [expand_cartesian_min_corner, expand_cartesian_max_corner,
      expand_cartesian_min_corner, expand_cartesian_max_corner]
    simp only [less_reversed_on, greater_reversed_on, std_less, std_greater, if_neg hd,
      and_self]

/-- The box `[(0,0),(1,1)]` and the point `(5,5)` with axis `0` reversed: axis `0` becomes
`5..1` (the minimum is replaced), axis `1` becomes `0..5` as in the natural expansion. -/
theorem C12_strategy_injection_witness :
    (∀ d : Fin 2, (⟨![0, 0], ![1, 1]⟩ : Box 2).min_corner d
        ≤ (⟨![0, 0], ![1, 1]⟩ : Box 2).max_corner d)
      ∧ (expand_cartesian (less_reversed_on 0) (greater_reversed_on 0)
          (⟨![0, 0], ![1, 1]⟩ : Box 2) ![5, 5]).min_corner 0 = 5
      ∧ (expand_cartesian (less_reversed_on 0) (greater_reversed_on 0)
          (⟨![0, 0], ![1, 1]⟩ : Box 2) ![5, 5]).max_corner 0 = 1
      ∧ (expand_cartesian (less_reversed_on 0) (greater_reversed_on 0)
          (⟨![0, 0], ![1, 1]⟩ : Box 2) ![5, 5]).max_corner 1
        = (expand_cartesian std_less std_greater (⟨![0, 0], ![1, 1]⟩ : Box 2) ![5, 5]).max_corner 1
      := by
  have hbox : ∀ d : Fin 2, (⟨![0, 0], ![1, 1]⟩ : Box 2).min_corner d
      ≤ (⟨![0, 0], ![1, 1]⟩ : Box 2).max_corner d := by
    intro d; fin_cases d <;> norm_num
  have h := C12_strategy_injection 2 ⟨![0, 0], ![1, 1]⟩ ![5, 5] 0 hbox
  have h1 := h.1 (by norm_num)
  have h3 := h.2.2 1 (by decide)
  refine ⟨hbox, ?_, ?_, h3.2⟩
  · rw [h1.1]; norm_num
  · rw [h1.2]; norm_num

/-- C17. Cartesian expansion is order-independent: with the natural orderings, expanding by
`p` and then by `q` gives exactly the box obtained by expanding by `q` and then by `p`. -/
theorem C17_cartesian_order_independent (D : Nat) (box : Box D) (p q : Point D) :
    expand_cartesian std_less std_greater (expand_cartesian std_less std_greater box p) q
      = expand_cartesian std_less std_greater (expand_cartesian std_less std_greater box q) p := by
  apply Box.ext_corners <;> funext d
  · rw [expand_cartesian_std_min, expand_cartesian_std_min, expand_cartesian_std_min,
      expand_cartesian_std_min]
    exact min_right_comm _ _ _
  · rw [expand_cartesian_std_max, expand_cartesian_std_max, expand_cartesian_std_max,
      expand_cartesian_std_max]
    rw [max_assoc, max_comm (p d) (q d), ← max_assoc]

/-- C19. Re-expansion is a no-op for strict strategies: when `less(c, c)` and
`greater(c, c)` are false on every dimension, running the loop (from any `Dimension`) a
second time with the same point gives the box of the first run, whatever else the
strategies do. -/
theorem C19_reexpansion_noop (D : Nat) (less greater : Strategy D)
    (hless : ∀ (d : Fin D) (c : ℚ), less d c c = false)
    (hgreater : ∀ (d : Fin D) (c : ℚ), greater d c c = false)
    (k Dimension : Nat) (h : Dimension + k = D) (box : Box D) (point : Point D) :
    point_loop less greater k Dimension h (point_loop less greater k Dimension h box point) point
      = point_loop less greater k Dimension h box point := by
  apply Box.ext_corners <;> funext d
  · rw [point_loop_min_corner less greater k Dimension h
      (point_loop less greater k Dimension h box point)]
    rw [point_loop_min_corner less greater k Dimension h box]
    by_cases hc : Dimension ≤ d.val ∧ less d (point d) (box.min_corner d) = true
    · simp [hc, hless]
    · simp only [if_neg hc]
  · rw [point_loop_max_corner less greater k Dimension h
      (point_loop less greater k Dimension h box point)]
    rw [point_loop_max_corner less greater k Dimension h box]
    by_cases hc : Dimension ≤ d.val ∧ greater d (point d) (box.max_corner d) = true
    · simp [hc, hgreater]
    · simp only [if_neg hc]

/-- With "different from" as both predicates, the one-dimensional box `[(0),(1)]` and the
point `(5)`: the first run replaces both bounds, giving `[(5),(5)]`, and the second run
changes nothing. -/
theorem C19_reexpansion_noop_witness :
    (∀ (d : Fin 1) (c : ℚ), differs d c c = false)
      ∧ expand_cartesian differs differs (⟨![0], ![1]⟩ : Box 1) ![5] = ⟨![5], ![5]⟩
      ∧ expand_cartesian differs differs
          (expand_cartesian differs differs (⟨![0], ![1]⟩ : Box 1) ![5]) ![5]
        = expand_cartesian differs differs (⟨![0], ![1]⟩ : Box 1) ![5] := by
  have hd : ∀ (d : Fin 1) (c : ℚ), differs d c c = false := by
    intro d c; simp [differs]
  refine ⟨hd, ?_, C19_reexpansion_noop 1 differs differs hd hd 1 0 rfl ⟨![0], ![1]⟩ ![5]⟩
  apply Box.ext_corners <;> funext d <;> fin_cases d
  · rw [expand_cartesian_min_corner]; norm_num [differs]
  · rw [expand_cartesian_max_corner]; norm_num [differs]

/-! ## Further claims on the spheroid -/

/-- C11. Latitude is updated in the same way on all three paths: the result has
`lat_min = min(box.lat_min, point.lat)` and `lat_max = max(box.lat_max, point.lat)`, hence
`lat_min <= lat_max`; and a second box and point with the same normalised latitudes,
whatever their longitudes, give the same two latitudes. -/
theorem C11_latitude_update (U : Units) (box box2 : Box 2) (point point2 : Point 2)
    (hmin : b_lat_min U box2 = b_lat_min U box) (hmax : b_lat_max U box2 = b_lat_max U box)
    (hlat : p_lat U point2 = p_lat U point) :
    (point_on_spheroid U box point).lat_min = min (b_lat_min U box) (p_lat U point)
      ∧ (point_on_spheroid U box point).lat_max = max (b_lat_max U box) (p_lat U point)
      ∧ (point_on_spheroid U box point).lat_min ≤ (point_on_spheroid U box point).lat_max
      ∧ (point_on_spheroid U box2 point2).lat_min = (point_on_spheroid U box point).lat_min
      ∧ (point_on_spheroid U box2 point2).lat_max = (point_on_spheroid U box point).lat_max := by
  have key : ∀ (b : Box 2) (p : Point 2),
      (point_on_spheroid U b p).lat_min = min (b_lat_min U b) (p_lat U p)
        ∧ (point_on_spheroid U b p).lat_max = max (b_lat_max U b) (p_lat U p) := by
    intro b p
    by_cases hp : point_at_pole U p
    · rw [point_on_spheroid_of_point_at_pole U b p hp]
      exact ⟨min_comm _ _, max_comm _ _⟩
    · by_cases hb : box_at_pole U b
      · rw [point_on_spheroid_of_box_at_pole U b p hp hb]
        exact ⟨min_comm _ _, max_comm _ _⟩
      · rw [point_on_spheroid_general U b p hp hb]
        exact ⟨rfl, rfl⟩
  obtain ⟨k1, k2⟩ := key box point
  obtain ⟨k3, k4⟩ := key box2 point2
  refine ⟨k1, k2, ?_, ?_, ?_⟩
  · rw [k1, k2]
    exact le_trans (min_le_right _ _) (le_max_right _ _)
  · rw [k3, k1, hmin, hlat]
  · rw [k4, k2, hmax, hlat]

/-- In degrees, the box `[lon 0..10, lat 80..85]` with the point `(123, 90)` and the box
`[lon 20..30, lat 80..85]` with the point `(-77, 90)`: both results have `lat 80..90`. -/
theorem C11_latitude_update_witness :
    b_lat_min degree ⟨![20, 80], ![30, 85]⟩ = b_lat_min degree ⟨![0, 80], ![10, 85]⟩
      ∧ b_lat_max degree ⟨![20, 80], ![30, 85]⟩ = b_lat_max degree ⟨![0, 80], ![10, 85]⟩
      ∧ p_lat degree ![-77, 90] = p_lat degree ![123, 90]
      ∧ (point_on_spheroid degree ⟨![0, 80], ![10, 85]⟩ ![123, 90]).lat_min = 80
      ∧ (point_on_spheroid degree ⟨![0, 80], ![10, 85]⟩ ![123, 90]).lat_max = 90
      ∧ (point_on_spheroid degree ⟨![20, 80], ![30, 85]⟩ ![-77, 90]).lat_min = 80
      ∧ (point_on_spheroid degree ⟨![20, 80], ![30, 85]⟩ ![-77, 90]).lat_max = 90 := by
  have hmin : b_lat_min degree ⟨![20, 80], ![30, 85]⟩
      = b_lat_min degree ⟨![0, 80], ![10, 85]⟩ := by
    norm_num [b_lat_min, box_coordinates, degree]
  have hmax : b_lat_max degree ⟨![20, 80], ![30, 85]⟩
      = b_lat_max degree ⟨![0, 80], ![10, 85]⟩ := by
    norm_num [b_lat_max, box_coordinates, degree]
  have hlat : p_lat degree ![-77, 90] = p_lat degree ![123, 90] := by
    norm_num [p_lat, point_coordinates, degree]
  obtain ⟨h1, h2, _, h4, h5⟩ := C11_latitude_update degree ⟨![0, 80], ![10, 85]⟩
    ⟨![20, 80], ![30, 85]⟩ ![123, 90] ![-77, 90] hmin hmax hlat
  have e1 : (point_on_spheroid degree ⟨![0, 80], ![10, 85]⟩ ![123, 90]).lat_min = 80 := by
    rw [h1]; norm_num [b_lat_min, p_lat, point_coordinates, box_coordinates, degree]
  have e2 : (point_on_spheroid degree ⟨![0, 80], ![10, 85]⟩ ![123, 90]).lat_max = 90 := by
    rw [h2]; norm_num [b_lat_max, p_lat, point_coordinates, box_coordinates, degree]
  exact ⟨hmin, hmax, hlat, e1, e2, h4.trans e1, h5.trans e2⟩

/-- C13. Tie-break in the general case (point not a pole, box not a degenerate pole): on
the low side, `lon < lon_min` with `lon + P > lon_max` and
`lon_min - lon = lon + P - lon_max`, the result is `lon_max := lon + P`; on the high side,
`lon >= lon_min` and `lon > lon_max` with `lon - lon_max = P - lon + lon_min`, the result is
`lon_max := lon`; in both ties `lon_min` is left as it was. -/
theorem C13_tie_break (U : Units) (box : Box 2) (point : Point 2)
    (hpoint : ¬ point_at_pole U point) (hbox : ¬ box_at_pole U box) :
    (p_lon U point < b_lon_min U box → b_lon_max U box < p_lon U point + U.period →
        b_lon_min U box - p_lon U point = p_lon U point + U.period - b_lon_max U box →
        (point_on_spheroid U box point).lon_max = p_lon U point + U.period
          ∧ (point_on_spheroid U box point).lon_min = b_lon_min U box)
      ∧ (b_lon_min U box ≤ p_lon U point → b_lon_max U box < p_lon U point →
        p_lon U point - b_lon_max U box = U.period - p_lon U point + b_lon_min U box →
        (point_on_spheroid U box point).lon_max = p_lon U point
          ∧ (point_on_spheroid U box point).lon_min = b_lon_min U box) := by
  rw [point_on_spheroid_general U box point hpoint hbox, update_longitudes_eq]
  simp only [assign_values_lon_min, assign_values_lon_max]
  refine ⟨fun h1 h2 h3 => ?_, fun h1 h2 h3 => ?_⟩
  · rw [if_pos h1, if_pos h2, if_neg (by rw [h3]; exact lt_irrefl _)]
    exact ⟨rfl, rfl⟩
  · rw [if_neg (not_lt.mpr h1), if_pos h2, if_neg (by rw [h3]; exact fun h => lt_irrefl _ h.2)]
    exact ⟨rfl, rfl⟩

/-- In degrees: the low-side tie, box `[lon 10..10, lat 0..0]` with point `(-170, 0)`
(both costs are `180`), gives `lon 10..190`. -/
theorem C13_tie_break_witness :
    ¬ point_at_pole degree ![-170, 0]
      ∧ ¬ box_at_pole degree ⟨![10, 0], ![10, 0]⟩
      ∧ p_lon degree ![-170, 0] < b_lon_min degree ⟨![10, 0], ![10, 0]⟩
      ∧ b_lon_max degree ⟨![10, 0], ![10, 0]⟩ < p_lon degree ![-170, 0] + degree.period
      ∧ b_lon_min degree ⟨![10, 0], ![10, 0]⟩ - p_lon degree ![-170, 0]
          = p_lon degree ![-170, 0] + degree.period - b_lon_max degree ⟨![10, 0], ![10, 0]⟩
      ∧ (point_on_spheroid degree ⟨![10, 0], ![10, 0]⟩ ![-170, 0]).lon_max = 190
      ∧ (point_on_spheroid degree ⟨![10, 0], ![10, 0]⟩ ![-170, 0]).lon_min = 10 := by
  have hpc := degree_point_coordinates (-170) 0 (by norm_num) (by norm_num)
  have hbc := degree_box_coordinates 10 0 10 0 (by norm_num) (by norm_num) (by norm_num)
    (by norm_num) (by norm_num)
  have hP : degree.period = 360 := rfl
  have hM : degree.max_latitude = 90 := rfl
  have hpoint : ¬ point_at_pole degree ![-170, 0] := by
    unfold point_at_pole p_lat; rw [hpc, hM]; norm_num
  have hbox : ¬ box_at_pole degree ⟨![10, 0], ![10, 0]⟩ := by
    unfold box_at_pole b_lat_min b_lat_max; rw [hbc, hM]; norm_num
  have hp : p_lon degree ![-170, 0] = -170 := by unfold p_lon; rw [hpc]
  have hmin : b_lon_min degree ⟨![10, 0], ![10, 0]⟩ = 10 := by unfold b_lon_min; rw [hbc]
  have hmax : b_lon_max degree ⟨![10, 0], ![10, 0]⟩ = 10 := by unfold b_lon_max; rw [hbc]
  have h1 : p_lon degree ![-170, 0] < b_lon_min degree ⟨![10, 0], ![10, 0]⟩ := by
    rw [hp, hmin]; norm_num
  have h2 : b_lon_max degree ⟨![10, 0], ![10, 0]⟩ < p_lon degree ![-170, 0] + degree.period := by
    rw [hp, hmax, hP]; norm_num
  have h3 : b_lon_min degree ⟨![10, 0], ![10, 0]⟩ - p_lon degree ![-170, 0]
      = p_lon degree ![-170, 0] + degree.period - b_lon_max degree ⟨![10, 0], ![10, 0]⟩ := by
    rw [hp, hmin, hmax, hP]; norm_num
  have h := (C13_tie_break degree ⟨![10, 0], ![10, 0]⟩ ![-170, 0] hpoint hbox).1 h1 h2 h3
  rw [hp, hmin, hP] at h
  exact ⟨hpoint, hbox, h1, h2, h3, by rw [h.1]; norm_num, h.2⟩

/-- C15. Canonical longitude form is preserved: when the normalised box has `lon_min` in
`(-P/2, P/2]`, `lon_min <= lon_max` and `lon_max - lon_min <= P`, and the normalised
longitude of the point is in `(-P/2, P/2]`, the resulting bounds satisfy the same three
conditions, on every path. -/
theorem C15_canonical_preserved (U : Units) (box : Box 2) (point : Point 2)
    (hbox : canonical_longitudes U.period (b_lon_min U box) (b_lon_max U box))
    (hrange : longitude_in_range U point) :
    canonical_longitudes U.period (point_on_spheroid U box point).lon_min
      (point_on_spheroid U box point).lon_max := by
  have hP := U.period_pos
  obtain ⟨hc1, hc2, hc3, hc4⟩ := hbox
  obtain ⟨hr1, hr2⟩ := hrange
  by_cases hpoint : point_at_pole U point
  · rw [point_on_spheroid_of_point_at_pole U box point hpoint]
    exact ⟨hc1, hc2, hc3, hc4⟩
  · by_cases hb : box_at_pole U box
    · rw [point_on_spheroid_of_box_at_pole U box point hpoint hb]
      simp only [assign_values_lon_min, assign_values_lon_max]
      exact ⟨hr1, hr2, le_refl _, by linarith⟩
    · rw [point_on_spheroid_general U box point hpoint hb, update_longitudes_eq]
      simp only [assign_values_lon_min, assign_values_lon_max]
      unfold canonical_longitudes
      split_ifs with h1 h2 h3 h4 h5 <;> dsimp only <;>
        refine ⟨by linarith, by linarith, by linarith, by linarith⟩

/-- In degrees, the box `[lon -170..-160, lat 0..0]` and the point `(175, 0)`: the wrapping
branch gives `lon 175..200`, again canonical. -/
theorem C15_canonical_preserved_witness :
    canonical_longitudes degree.period (b_lon_min degree ⟨![-170, 0], ![-160, 0]⟩)
        (b_lon_max degree ⟨![-170, 0], ![-160, 0]⟩)
      ∧ longitude_in_range degree ![175, 0]
      ∧ (point_on_spheroid degree ⟨![-170, 0], ![-160, 0]⟩ ![175, 0]).lon_min = 175
      ∧ (point_on_spheroid degree ⟨![-170, 0], ![-160, 0]⟩ ![175, 0]).lon_max = 200
      ∧ canonical_longitudes degree.period
          (point_on_spheroid degree ⟨![-170, 0], ![-160, 0]⟩ ![175, 0]).lon_min
          (point_on_spheroid degree ⟨![-170, 0], ![-160, 0]⟩ ![175, 0]).lon_max := by
  have hbc := degree_box_coordinates (-170) 0 (-160) 0 (by norm_num) (by norm_num)
    (by norm_num) (by norm_num) (by norm_num)
  have hP : degree.period = 360 := rfl
  have hbox : canonical_longitudes degree.period (b_lon_min degree ⟨![-170, 0], ![-160, 0]⟩)
      (b_lon_max degree ⟨![-170, 0], ![-160, 0]⟩) := by
    unfold canonical_longitudes b_lon_min b_lon_max; rw [hbc, hP]; norm_num
  have hrange := degree_longitude_in_range ![175, 0]
  have hr := degree_point_on_spheroid_general (-170) 0 (-160) 0 175 0 (by norm_num)
    (by norm_num) (by norm_num) (by norm_num) (by norm_num) (by norm_num) (by norm_num)
    (by norm_num) (by norm_num)
  refine ⟨hbox, hrange, ?_, ?_,
    C15_canonical_preserved degree ⟨![-170, 0], ![-160, 0]⟩ ![175, 0] hbox hrange⟩
  · rw [hr]; norm_num [update_longitudes_eq]
  · rw [hr]; norm_num [update_longitudes_eq]

/-- C16. The expansion never shrinks the box: for a canonical box that is not a degenerate
pole and a point whose normalised longitude is in `(-P/2, P/2]`, the result has
`lat_min <= old lat_min`, `lat_max >= old lat_max`, and the old longitude interval lies in
the new one, as it is or shifted by one period. -/
theorem C16_never_shrinks (U : Units) (box : Box 2) (point : Point 2)
    (hcanon : canonical_box U box) (hbox : ¬ box_at_pole U box)
    (hrange : longitude_in_range U point) :
    (point_on_spheroid U box point).lat_min ≤ b_lat_min U box
      ∧ b_lat_max U box ≤ (point_on_spheroid U box point).lat_max
      ∧ (((point_on_spheroid U box point).lon_min ≤ b_lon_min U box
            ∧ b_lon_max U box ≤ (point_on_spheroid U box point).lon_max)
          ∨ ((point_on_spheroid U box point).lon_min ≤ b_lon_min U box + U.period
            ∧ b_lon_max U box + U.period ≤ (point_on_spheroid U box point).lon_max)) := by
  obtain ⟨hc1, hc2, hc3⟩ := hcanon
  obtain ⟨hr1, hr2⟩ := hrange
  by_cases hpoint : point_at_pole U point
  · rw [point_on_spheroid_of_point_at_pole U box point hpoint]
    exact ⟨min_le_right _ _, le_max_right _ _, Or.inl ⟨le_refl _, le_refl _⟩⟩
  · rw [point_on_spheroid_general U box point hpoint hbox, update_longitudes_eq]
    refine ⟨min_le_left _ _, le_max_left _ _, ?_⟩
    simp only [assign_values_lon_min, assign_values_lon_max]
    split_ifs with h1 h2 h3 h4 h5 <;> dsimp only
    · exact Or.inl ⟨by linarith, le_refl _⟩
    · exact Or.inl ⟨le_refl _, by linarith⟩
    · exact Or.inl ⟨le_refl _, le_refl _⟩
    · exact Or.inr ⟨by linarith, le_refl _⟩
    · exact Or.inl ⟨le_refl _, by linarith⟩
    · exact Or.inl ⟨le_refl _, le_refl _⟩

/-- In degrees, the box `[lon -170..-160, lat 0..0]` and the point `(175, 10)`: the result
is `[lon 175..200, lat 0..10]`, which contains the old longitude interval shifted by `360`,
that is `190..200`. -/
theorem C16_never_shrinks_witness :
    canonical_box degree ⟨![-170, 0], ![-160, 0]⟩
      ∧ ¬ box_at_pole degree ⟨![-170, 0], ![-160, 0]⟩
      ∧ longitude_in_range degree ![175, 10]
      ∧ point_on_spheroid degree ⟨![-170, 0], ![-160, 0]⟩ ![175, 10]
          = ⟨![175, 0], ![200, 10]⟩
      ∧ (point_on_spheroid degree ⟨![-170, 0], ![-160, 0]⟩ ![175, 10]).lon_min
          ≤ b_lon_min degree ⟨![-170, 0], ![-160, 0]⟩ + degree.period
      ∧ b_lon_max degree ⟨![-170, 0], ![-160, 0]⟩ + degree.period
          ≤ (point_on_spheroid degree ⟨![-170, 0], ![-160, 0]⟩ ![175, 10]).lon_max := by
  have hbc := degree_box_coordinates (-170) 0 (-160) 0 (by norm_num) (by norm_num)
    (by norm_num) (by norm_num) (by norm_num)
  have hP : degree.period = 360 := rfl
  have hM : degree.max_latitude = 90 := rfl
  have hcanon : canonical_box degree ⟨![-170, 0], ![-160, 0]⟩ := by
    unfold canonical_box b_lon_min b_lon_max; rw [hbc, hP]; norm_num
  have hbox : ¬ box_at_pole degree ⟨![-170, 0], ![-160, 0]⟩ := by
    unfold box_at_pole b_lat_min b_lat_max; rw [hbc, hM]; norm_num
  have hrange := degree_longitude_in_range ![175, 10]
  have hr : point_on_spheroid degree ⟨![-170, 0], ![-160, 0]⟩ ![175, 10]
      = ⟨![175, 0], ![200, 10]⟩ := by
    rw [degree_point_on_spheroid_general (-170) 0 (-160) 0 175 10 (by norm_num)
      (by norm_num) (by norm_num) (by norm_num) (by norm_num) (by norm_num) (by norm_num)
      (by norm_num) (by norm_num)]
    norm_num [update_longitudes_eq, assign_values]
  have h := C16_never_shrinks degree ⟨![-170, 0], ![-160, 0]⟩ ![175, 10] hcanon hbox hrange
  rcases h.2.2 with ⟨h1, _⟩ | ⟨h1, h2⟩
  · exfalso
    rw [hr] at h1
    unfold b_lon_min at h1
    rw [hbc] at h1
    norm_num [Box.lon_min] at h1
  · exact ⟨hcanon, hbox, hrange, hr, h1, h2⟩

/-- C18. Angular expansion depends on the order of the points. In degrees, the canonical
box `[lon 0..0, lat 0..0]` with the non-pole points `p = (100, 0)` and `q = (-150, 0)`:
`p` then `q` gives `lon 0..210`, `q` then `p` gives `lon -150..100`; the two boxes differ and
so do their longitude spans (`210` and `250`). -/
theorem C18_angular_order_dependent :
    canonical_box degree ⟨![0, 0], ![0, 0]⟩
      ∧ ¬ point_at_pole degree ![100, 0]
      ∧ ¬ point_at_pole degree ![-150, 0]
      ∧ point_on_spheroid degree (point_on_spheroid degree ⟨![0, 0], ![0, 0]⟩ ![100, 0])
          ![-150, 0] = ⟨![0, 0], ![210, 0]⟩
      ∧ point_on_spheroid degree (point_on_spheroid degree ⟨![0, 0], ![0, 0]⟩ ![-150, 0])
          ![100, 0] = ⟨![-150, 0], ![100, 0]⟩
      ∧ point_on_spheroid degree (point_on_spheroid degree ⟨![0, 0], ![0, 0]⟩ ![100, 0])
          ![-150, 0]
        ≠ point_on_spheroid degree (point_on_spheroid degree ⟨![0, 0], ![0, 0]⟩ ![-150, 0])
          ![100, 0]
      ∧ (point_on_spheroid degree (point_on_spheroid degree ⟨![0, 0], ![0, 0]⟩ ![100, 0])
            ![-150, 0]).lon_max
          - (point_on_spheroid degree (point_on_spheroid degree ⟨![0, 0], ![0, 0]⟩ ![100, 0])
            ![-150, 0]).lon_min
        ≠ (point_on_spheroid degree (point_on_spheroid degree ⟨![0, 0], ![0, 0]⟩ ![-150, 0])
            ![100, 0]).lon_max
          - (point_on_spheroid degree (point_on_spheroid degree ⟨![0, 0], ![0, 0]⟩ ![-150, 0])
            ![100, 0]).lon_min := by
  have hP : degree.period = 360 := rfl
  have hM : degree.max_latitude = 90 := rfl
  have hbc := degree_box_coordinates 0 0 0 0 (by norm_num) (by norm_num) (by norm_num)
    (by norm_num) (by norm_num)
  have hcanon : canonical_box degree ⟨![0, 0], ![0, 0]⟩ := by
    unfold canonical_box b_lon_min b_lon_max; rw [hbc, hP]; norm_num
  have hp : ¬ point_at_pole degree ![100, 0] := by
    unfold point_at_pole p_lat
    rw [degree_point_coordinates 100 0 (by norm_num) (by norm_num), hM]; norm_num
  have hq : ¬ point_at_pole degree ![-150, 0] := by
    unfold point_at_pole p_lat
    rw [degree_point_coordinates (-150) 0 (by norm_num) (by norm_num), hM]; norm_num
  have e1 : point_on_spheroid degree ⟨![0, 0], ![0, 0]⟩ ![100, 0] = ⟨![0, 0], ![100, 0]⟩ := by
    rw [degree_point_on_spheroid_general 0 0 0 0 100 0 (by norm_num) (by norm_num)
      (by norm_num) (by norm_num) (by norm_num) (by norm_num) (by norm_num) (by norm_num)
      (by norm_num)]
    norm_num [update_longitudes_eq, assign_values]
  have e2 : point_on_spheroid degree ⟨![0, 0], ![100, 0]⟩ ![-150, 0]
      = ⟨![0, 0], ![210, 0]⟩ := by
    rw [degree_point_on_spheroid_general 0 0 100 0 (-150) 0 (by norm_num) (by norm_num)
      (by norm_num) (by norm_num) (by norm_num) (by norm_num) (by norm_num) (by norm_num)
      (by norm_num)]
    norm_num [update_longitudes_eq, assign_values]
  have e3 : point_on_spheroid degree ⟨![0, 0], ![0, 0]⟩ ![-150, 0]
      = ⟨![-150, 0], ![0, 0]⟩ := by
    rw [degree_point_on_spheroid_general 0 0 0 0 (-150) 0 (by norm_num) (by norm_num)
      (by norm_num) (by norm_num) (by norm_num) (by norm_num) (by norm_num) (by norm_num)
      (by norm_num)]
    norm_num [update_longitudes_eq, assign_values]
  have e4 : point_on_spheroid degree ⟨![-150, 0], ![0, 0]⟩ ![100, 0]
      = ⟨![-150, 0], ![100, 0]⟩ := by
    rw [degree_point_on_spheroid_general (-150) 0 0 0 100 0 (by norm_num) (by norm_num)
      (by norm_num) (by norm_num) (by norm_num) (by norm_num) (by norm_num) (by norm_num)
      (by norm_num)]
    norm_num [update_longitudes_eq, assign_values]
  rw [e1, e2, e3, e4]
  refine ⟨hcanon, hp, hq, rfl, rfl, ?_, ?_⟩
  · intro h
    have h2 := congrArg (fun b : Box 2 => b.max_corner 0) h
    norm_num at h2
  · norm_num [Box.lon_min, Box.lon_max]

/-! ## Dispatch -/

/-- C14, as stated, fails on a mismatched pair. The pair (spherical-equatorial, geographic)
is no configuration error: it matches the generic specialisation and reaches the Cartesian
loop. In degrees the box `[lon 170..175, lat 0..0]` and the point `(-175, 0)` then give the
Cartesian result `[(-175, 0), (175, 0)]`. -/
theorem C14_dispatch_counterexample :
    dispatch_expand CSTag.spherical_equatorial_tag CSTag.geographic_tag
        = some Algorithm.point_loop
      ∧ dispatch_expand CSTag.spherical_equatorial_tag CSTag.geographic_tag ≠ none
      ∧ dispatch_expand_apply degree std_less std_greater CSTag.spherical_equatorial_tag
          CSTag.geographic_tag ⟨![170, 0], ![175, 0]⟩ ![-175, 0]
        = some ⟨![-175, 0], ![175, 0]⟩ := by
  have hd : dispatch_expand CSTag.spherical_equatorial_tag CSTag.geographic_tag
      = some Algorithm.point_loop := by decide
  refine ⟨hd, by rw [hd]; exact Option.some_ne_none _, ?_⟩
  simp only [dispatch_expand_apply, hd]
  congr 1
  apply Box.ext_corners <;> funext d <;>
    first
      | rw [expand_cartesian_std_min]
      | rw [expand_cartesian_std_max]
  all_goals fin_cases d <;> norm_num

/-- C14, amended. A cartesian pair is routed to the Cartesian loop started at dimension 0;
the (spherical-equatorial, spherical-equatorial) pair and the (geographic, geographic) pair
are both routed to `point_on_spheroid` and give the same result on the same input; every
other pair of tags, unclassified or mismatched ones included, is routed to the Cartesian
loop as well, so no pair is left without an algorithm. -/
theorem C14_dispatch_amended :
    dispatch_expand CSTag.cartesian_tag CSTag.cartesian_tag = some Algorithm.point_loop
      ∧ dispatch_expand CSTag.spherical_equatorial_tag CSTag.spherical_equatorial_tag
          = some Algorithm.point_on_spheroid
      ∧ dispatch_expand CSTag.geographic_tag CSTag.geographic_tag
          = some Algorithm.point_on_spheroid
      ∧ (∀ (U : Units) (less greater : Strategy 2) (box : Box 2) (point : Point 2),
          dispatch_expand_apply U less greater CSTag.cartesian_tag CSTag.cartesian_tag box point
              = some (point_loop less greater 2 0 (Nat.zero_add 2) box point)
            ∧ dispatch_expand_apply U less greater CSTag.spherical_equatorial_tag
                CSTag.spherical_equatorial_tag box point = some (point_on_spheroid U box point)
            ∧ dispatch_expand_apply U less greater CSTag.geographic_tag CSTag.geographic_tag
                box point = some (point_on_spheroid U box point))
      ∧ (∀ a b : CSTag, dispatch_expand a b =
          if (a = CSTag.spherical_equatorial_tag ∧ b = CSTag.spherical_equatorial_tag)
              ∨ (a = CSTag.geographic_tag ∧ b = CSTag.geographic_tag) then
            some Algorithm.point_on_spheroid
          else some Algorithm.point_loop) := by
  have h1 : dispatch_expand CSTag.cartesian_tag CSTag.cartesian_tag
      = some Algorithm.point_loop := by decide
  have h2 : dispatch_expand CSTag.spherical_equatorial_tag CSTag.spherical_equatorial_tag
      = some Algorithm.point_on_spheroid := by decide
  have h3 : dispatch_expand CSTag.geographic_tag CSTag.geographic_tag
      = some Algorithm.point_on_spheroid := by decide
  refine ⟨h1, h2, h3, fun U less greater box point => ?_, ?_⟩
  · simp only [dispatch_expand_apply, h1, h2, h3, expand_cartesian, and_self]
  · intro a b
    cases a <;> cases b <;> decide

end Expand
